import Mathlib

/-!
# SQL5300 statement executor (SQLExec.cpp): embedding and verified properties

The executor of `src/SQLExec.cpp` is embedded as state-passing functions over a
`World` holding the three catalog relations, the set of physical relations, a
script of injected storage faults and the log of mutating storage calls.  Every
handler returns the outcome (`Except Exn _`) together with the world it leaves
behind, so that the state after a *failed* statement can be examined.

The storage collaborator (relations, indices, handles) and the parser are not part
of the sources; they are modelled from section 6 of the specification.  The
second source file, `src/SQLexec.cpp`, is embedded on its own under `Variant`,
and `operator<<` as `QueryResult.print`.
-/

namespace SQL5300

/-! ## Row / value model -/

abbrev Identifier := String

/-- Modelled from the spec: ColumnAttribute::DataType (declared with the storage
engine, not part of the sources), the tag of a value: integer, text or boolean,
and `OTHER` for any tag outside them (the "no value" sentinel of section 3). -/
inductive DataType
  | INT
  | TEXT
  | BOOLEAN
  | OTHER
deriving DecidableEq

/-- Modelled from the spec: ColumnAttribute, the declared type of a column
(section 3; declared with the storage engine, not part of the sources). -/
structure ColumnAttribute where
  data_type : DataType
deriving DecidableEq

def ColumnAttribute.get_data_type (a : ColumnAttribute) : DataType := a.data_type

/-- Modelled from the spec: Value, the tagged scalar of section 3 (declared with
the storage engine, not part of the sources): an integer, a text, a boolean
carried as a number, or the "no value" sentinel.  Equality depends on the tag: two
values are equal when they have the same tag and the same content under it.
`Value.text s` is the constructor `Value(string)`, `Value.int n` is `Value(int)`. -/
inductive Value
  | int (n : Int)
  | text (s : String)
  | boolean (n : Int)
  | other
deriving DecidableEq

/-- The member `value.data_type`. -/
def Value.data_type : Value → DataType
  | Value.int _ => DataType.INT
  | Value.text _ => DataType.TEXT
  | Value.boolean _ => DataType.BOOLEAN
  | Value.other => DataType.OTHER

/-- The member `value.n`: the number of an integer or boolean value. -/
def Value.n : Value → Int
  | Value.int n => n
  | Value.boolean n => n
  | _ => 0

/-- The member `value.s`: the text of a text value, empty otherwise. -/
def Value.s : Value → String
  | Value.text s => s
  | _ => ""

/-- Modelled from the spec: ValueDict, a row, the mapping from column identifier
to value of section 3 (declared with the storage engine, not part of the
sources), kept as an association list read and written by key. -/
abbrev ValueDict := List (Identifier × Value)

/-- The lookup behind `row.at(key)` / `row.find(key)`: `none` when the key is absent. -/
def ValueDict.get (row : ValueDict) (key : Identifier) : Option Value :=
  match row with
  | [] => none
  | kv :: rest => if kv.1 = key then some kv.2 else ValueDict.get rest key

/-- The assignment `row[key] = v`: replaces the value of an existing key, adds the key otherwise. -/
def ValueDict.assign (row : ValueDict) (key : Identifier) (v : Value) : ValueDict :=
  match row with
  | [] => [(key, v)]
  | kv :: rest => if kv.1 = key then (key, v) :: rest else kv :: ValueDict.assign rest key v

/-- Exact-match filter: every named column of `filter` has the same value in `row`. -/
def ValueDict.satisfies (row filter : ValueDict) : Bool :=
  filter.all (fun kv => decide (ValueDict.get row kv.1 = some kv.2))

/-- The requested columns of a row, in the order of the column list. -/
def ValueDict.project (row : ValueDict) (names : List Identifier) : ValueDict :=
  names.filterMap (fun name => (ValueDict.get row name).map (fun v => (name, v)))

/-! ## Relation contract (storage collaborator) -/

abbrev Handle := Nat
abbrev Handles := List Handle

/-- Modelled from the spec: a stored relation (section 6, relation contract; the
storage engine is not part of the sources).  Slot `h` holds the record addressed by
handle `h`, and `none` once that record has been deleted; records are kept in
insertion order and a handle is never reused, so a handle addresses exactly one
record of exactly one relation. -/
abbrev Relation := List (Option ValueDict)

/-- The stored rows with their handles, from slot `i` on. -/
def Relation.rowsFrom : Nat → Relation → List (Handle × ValueDict)
  | _, [] => []
  | i, none :: rest => Relation.rowsFrom (i + 1) rest
  | i, some row :: rest => (i, row) :: Relation.rowsFrom (i + 1) rest

/-- The rows of a relation, each with its handle, in insertion order. -/
def Relation.rows (r : Relation) : List (Handle × ValueDict) := Relation.rowsFrom 0 r

/-- Modelled from the spec: `select()` / `select(filter)`, the handles of the rows
matching an exact-match filter, in insertion order (no filter = all rows). -/
def Relation.select (r : Relation) (filter : Option ValueDict) : Handles :=
  ((Relation.rows r).filter (fun p =>
    match filter with
    | none => true
    | some f => ValueDict.satisfies p.2 f)).map Prod.fst

/-- Modelled from the spec: `project(handle, column_list)`, the requested columns
of the referenced row. -/
def Relation.project (r : Relation) (h : Handle) (names : List Identifier) : ValueDict :=
  match r[h]? with
  | some (some row) => ValueDict.project row names
  | _ => []

/-- The rows of a relation that reference table `T` (their `table_name` is the text `T`). -/
def Relation.referencing (r : Relation) (T : Identifier) : List (Handle × ValueDict) :=
  (Relation.rows r).filter (fun p => ValueDict.satisfies p.2 [("table_name", Value.text T)])

/-! ## Execution context -/

/-- The three catalog relations. -/
inductive Catalog
  | tables
  | columns
  | indices
deriving DecidableEq

/-- A mutating request sent to the storage collaborator. -/
inductive Call
  | insert (rel : Catalog) (row : ValueDict)
  | del (rel : Catalog) (h : Handle)
  | create (name : Identifier)
  | create_if_not_exists (name : Identifier)
  | drop (name : Identifier)
  | drop_index (table : Identifier) (index : Identifier)
deriving DecidableEq

/-- The exceptions that can leave a handler: the relation-layer error
`DbRelationError`, the executor-level error `SQLExecError`, the
`std::out_of_range` of `at` on an absent key, and undefined behaviour
(dereferencing `begin()` of an empty selection). -/
inductive Exn
  | DbRelationError (what : String)
  | SQLExecError (what : String)
  | out_of_range
  | undefined_behavior
deriving DecidableEq

/-- Modelled from the spec: the execution context (sections 5 and 6).  It holds the
catalog relations behind `SQLExec::tables` and `SQLExec::indices`, the physical
relations and indices that exist in the storage collaborator, the script of
storage faults still to come, and the log of mutating storage calls.  Every call
to the collaborator either returns or raises an error: each mutating call
(insert, del, create, create_if_not_exists, drop) consumes one entry of the
script, and `some m` makes that call raise `DbRelationError m` and change
nothing.  The reading calls (select, project, get_columns, get_table) always
return and consume nothing. -/
structure World where
  tables : Relation
  columns : Relation
  indices : Relation
  physical : List Identifier
  physical_indices : List (Identifier × Identifier)
  faults : List (Option String)
  calls : List Call
deriving DecidableEq

def World.rel (w : World) : Catalog → Relation
  | Catalog.tables => w.tables
  | Catalog.columns => w.columns
  | Catalog.indices => w.indices

def World.setRel (w : World) (c : Catalog) (r : Relation) : World :=
  match c with
  | Catalog.tables => { w with tables := r }
  | Catalog.columns => { w with columns := r }
  | Catalog.indices => { w with indices := r }

/-- The fault scheduled for the next mutating storage call, if any. -/
def World.fault (w : World) : Option String := w.faults.headD none

/-- Record a mutating storage call and consume the next entry of the fault script. -/
def World.logged (w : World) (c : Call) : World :=
  { w with faults := w.faults.tail, calls := w.calls ++ [c] }

/-- Modelled from the spec: Tables::TABLE_NAME, the name of the tables catalog
relation (its constant is not part of the sources; the comments of SQLExec.cpp
call the relation `_tables`). -/
def Tables.TABLE_NAME : Identifier := "_tables"

/-- Modelled from the spec: Columns::TABLE_NAME, the name of the columns catalog
relation (its constant is not part of the sources; the comments of SQLExec.cpp
call the relation `_columns`). -/
def Columns.TABLE_NAME : Identifier := "_columns"

/-- Modelled from the spec: the name of the indices catalog relation (the third
catalog relation of section 2; its constant is not part of the sources). -/
def Indices.TABLE_NAME : Identifier := "_indices"

/-- Modelled from the spec: `insert(row) -> handle`, store one row and return its
handle (section 6). -/
def DbRelation.insert (c : Catalog) (row : ValueDict) (w : World) : Except Exn Handle × World :=
  let w1 := w.logged (Call.insert c row)
  match w.fault with
  | some m => (Except.error (Exn.DbRelationError m), w1)
  | none => (Except.ok (w1.rel c).length, w1.setRel c (w1.rel c ++ [some row]))

/-- Modelled from the spec: `del(handle)`, remove the row referenced by the handle
(section 6); nothing is stored under a handle that references no row. -/
def DbRelation.del (c : Catalog) (h : Handle) (w : World) : Except Exn Unit × World :=
  let w1 := w.logged (Call.del c h)
  match w.fault with
  | some m => (Except.error (Exn.DbRelationError m), w1)
  | none => (Except.ok (), w1.setRel c ((w1.rel c).set h none))

/-- Modelled from the spec: `create()`, materialize the physical relation; the
plain form fails if it already exists (section 6). -/
def DbRelation.create (name : Identifier) (w : World) : Except Exn Unit × World :=
  let w1 := w.logged (Call.create name)
  match w.fault with
  | some m => (Except.error (Exn.DbRelationError m), w1)
  | none =>
    if name ∈ w1.physical then
      (Except.error (Exn.DbRelationError (name ++ " already exists")), w1)
    else
      (Except.ok (), { w1 with physical := w1.physical ++ [name] })

/-- Modelled from the spec: `create_if_not_exists()`, materialize the physical
relation unless it is already there (section 6). -/
def DbRelation.create_if_not_exists (name : Identifier) (w : World) : Except Exn Unit × World :=
  let w1 := w.logged (Call.create_if_not_exists name)
  match w.fault with
  | some m => (Except.error (Exn.DbRelationError m), w1)
  | none =>
    if name ∈ w1.physical then (Except.ok (), w1)
    else (Except.ok (), { w1 with physical := w1.physical ++ [name] })

/-- Modelled from the spec: `drop()`, remove the physical relation; fails if it
does not exist (sections 6 and 7). -/
def DbRelation.drop (name : Identifier) (w : World) : Except Exn Unit × World :=
  let w1 := w.logged (Call.drop name)
  match w.fault with
  | some m => (Except.error (Exn.DbRelationError m), w1)
  | none =>
    if name ∈ w1.physical then
      (Except.ok (), { w1 with physical := w1.physical.filter (fun x => decide (x ≠ name)) })
    else
      (Except.error (Exn.DbRelationError (name ++ " does not exist")), w1)

/-- Modelled from the spec: `get_columns(table_name, out_names, out_attributes)`
for the tables relation itself, whose declared schema is the single text column
`table_name` (section 4.5); any other table's schema is read from the columns
relation. -/
def Tables.get_columns (name : Identifier) (w : World) : List Identifier × List ColumnAttribute :=
  if name = Tables.TABLE_NAME then
    (["table_name"], [{ data_type := DataType.TEXT }])
  else
    let rows := (Relation.referencing w.columns name).map Prod.snd
    (rows.filterMap (fun row => (ValueDict.get row "column_name").map (fun v => v.s)),
     rows.filterMap (fun row => (ValueDict.get row "data_type").map (fun v =>
        if v.s = "INT" then { data_type := DataType.INT }
        else if v.s = "TEXT" then { data_type := DataType.TEXT }
        else if v.s = "BOOLEAN" then { data_type := DataType.BOOLEAN }
        else { data_type := DataType.OTHER })))

/-! ## Parsed statements (parser contract) -/

/-- Modelled from the spec: ColumnDefinition::DataType, the declared type of a
column definition (parser contract of section 6; the parser is not part of the
sources). -/
inductive ColumnDefinition.DataType
  | UNKNOWN
  | TEXT
  | INT
  | DOUBLE
deriving DecidableEq

/-- Modelled from the spec: ColumnDefinition, a declared name and a declared type
(parser contract). -/
structure ColumnDefinition where
  name : String
  type : ColumnDefinition.DataType
deriving DecidableEq

/-- Modelled from the spec: CreateStatement, with the fields the parser contract
lists for it: table name, column definitions, "if not exists" flag. -/
structure CreateStatement where
  tableName : String
  columns : List ColumnDefinition
  ifNotExists : Bool
deriving DecidableEq

/-- Modelled from the spec: DropStatement::EntityType, the drop target kind
(parser contract). -/
inductive DropStatement.EntityType
  | kTable
  | kSchema
  | kIndex
  | kView
  | kPreparedStatement
deriving DecidableEq

/-- Modelled from the spec: DropStatement, with its target kind, target name and
index name (parser contract). -/
structure DropStatement where
  type : DropStatement.EntityType
  name : String
  indexName : String
deriving DecidableEq

/-- Modelled from the spec: ShowStatement::EntityType, the show target kind
(parser contract). -/
inductive ShowStatement.EntityType
  | kTables
  | kColumns
  | kIndex
deriving DecidableEq

/-- Modelled from the spec: ShowStatement, with its target kind and table name
(parser contract). -/
structure ShowStatement where
  type : ShowStatement.EntityType
  tableName : String
deriving DecidableEq

/-- Modelled from the spec: the statement kinds other than CREATE, DROP and SHOW
(parser contract), which `SQLExec::execute` sends to its default branch. -/
inductive OtherKind
  | kStmtError
  | kStmtSelect
  | kStmtImport
  | kStmtInsert
  | kStmtUpdate
  | kStmtDelete
  | kStmtPrepare
  | kStmtExecute
  | kStmtExport
  | kStmtRename
  | kStmtAlter
deriving DecidableEq

/-- Modelled from the spec: SQLStatement, a parsed statement with its discriminant
`statement->type()` (parser contract); the cast of `execute` to the statement
class of the kind is the payload of the constructor. -/
inductive SQLStatement
  | kStmtCreate (s : CreateStatement)
  | kStmtDrop (s : DropStatement)
  | kStmtShow (s : ShowStatement)
  | other (kind : OtherKind)
deriving DecidableEq

/-! ## Result model -/

/-- Modelled from the spec: QueryResult (section 3; declared in SQLExec.h, not part
of the sources): column names, column attributes and rows, each of which may be
absent, and a message. -/
structure QueryResult where
  column_names : Option (List Identifier)
  column_attributes : Option (List ColumnAttribute)
  rows : Option (List ValueDict)
  message : String
deriving DecidableEq

/-- The constructor `QueryResult(string message)`: no tabular output. -/
def QueryResult.ofMessage (message : String) : QueryResult :=
  { column_names := none, column_attributes := none, rows := none, message := message }

/-! ## The statement executor (SQLExec.cpp) -/

/-- SQLExec::column_definition: the column name and attribute of a definition;
only INT and TEXT are supported. -/
def SQLExec.column_definition (col : ColumnDefinition) : Except Exn (Identifier × ColumnAttribute) :=
  match col.type with
  | ColumnDefinition.DataType.INT => Except.ok (col.name, { data_type := DataType.INT })
  | ColumnDefinition.DataType.TEXT => Except.ok (col.name, { data_type := DataType.TEXT })
  | _ => Except.error (Exn.SQLExecError "Not supported")

/-- The `for` loop of SQLExec::create over the column definitions: each column in
turn is translated and inserted into the columns relation, `row` being reused
and `columnHandler` growing by the handle of every inserted row.  The handles
collected so far are returned also when the loop is left by an exception. -/
def SQLExec.create_columns : List ColumnDefinition → ValueDict → Handles → World →
    Except Exn ValueDict × Handles × World
  | [], row, columnHandler, w => (Except.ok row, columnHandler, w)
  | column :: rest, row, columnHandler, w =>
    match SQLExec.column_definition column with
    | Except.error e => (Except.error e, columnHandler, w)
    | Except.ok (name, column_attribute) =>
      let type := if column_attribute.get_data_type = DataType.TEXT then "TEXT" else "INT"
      let row1 := ValueDict.assign (ValueDict.assign row "data_type" (Value.text type))
        "column_name" (Value.text name)
      match DbRelation.insert Catalog.columns row1 w with
      | (Except.error e, w1) => (Except.error e, columnHandler, w1)
      | (Except.ok h, w1) => SQLExec.create_columns rest row1 (columnHandler ++ [h]) w1

/-- The inner `try` block of SQLExec::create: the column loop, then the physical
creation of the table (plain or if-not-exists). -/
def SQLExec.create_try (statement : CreateStatement) (row : ValueDict) (w : World) :
    Except Exn Unit × Handles × World :=
  match SQLExec.create_columns statement.columns row [] w with
  | (Except.error e, columnHandler, w1) => (Except.error e, columnHandler, w1)
  | (Except.ok _, columnHandler, w1) =>
    match (if statement.ifNotExists then DbRelation.create_if_not_exists statement.tableName w1
           else DbRelation.create statement.tableName w1) with
    | (Except.error e, w2) => (Except.error e, columnHandler, w2)
    | (Except.ok _, w2) => (Except.ok (), columnHandler, w2)

/-- The loop `for (handle : handles) relation.del(handle)`: it is left at the first
deletion that raises. -/
def SQLExec.del_each (c : Catalog) : Handles → World → Except Exn Unit × World
  | [], w => (Except.ok (), w)
  | h :: rest, w =>
    match DbRelation.del c h w with
    | (Except.error e, w1) => (Except.error e, w1)
    | (Except.ok _, w1) => SQLExec.del_each c rest w1

/-- The pattern `try { body } catch (DbRelationError &e) {}`: a relation error of the
body is swallowed (`none`), any other exception escapes (`some e`). -/
def SQLExec.swallow (r : Except Exn Unit × World) : Option Exn × World :=
  match r with
  | (Except.ok _, w) => (none, w)
  | (Except.error (Exn.DbRelationError _), w) => (none, w)
  | (Except.error e, w) => (some e, w)

/-- SQLExec::create.  The tables row is inserted outside the `try` blocks; a
`DbRelationError` of the inner block is handled by deleting the collected columns
rows, then the tables row, and rethrown; any other exception leaves directly. -/
def SQLExec.create (statement : CreateStatement) (w : World) : Except Exn QueryResult × World :=
  let row : ValueDict := [("table_name", Value.text statement.tableName)]
  match DbRelation.insert Catalog.tables row w with
  | (Except.error e, w1) => (Except.error e, w1)
  | (Except.ok tableHandler, w1) =>
    match SQLExec.create_try statement row w1 with
    | (Except.ok _, _, w2) =>
      (Except.ok (QueryResult.ofMessage ("Created new table: " ++ statement.tableName)), w2)
    | (Except.error (Exn.DbRelationError m), columnHandler, w2) =>
      match SQLExec.swallow (SQLExec.del_each Catalog.columns columnHandler w2) with
      | (some e, w3) => (Except.error e, w3)
      | (none, w3) =>
        match SQLExec.swallow (DbRelation.del Catalog.tables tableHandler w3) with
        | (some e, w4) => (Except.error e, w4)
        | (none, w4) => (Except.error (Exn.DbRelationError m), w4)
    | (Except.error e, _, w2) => (Except.error e, w2)

/-- SQLExec::drop. -/
def SQLExec.drop (statement : DropStatement) (w : World) : Except Exn QueryResult × World :=
  if statement.type ≠ DropStatement.EntityType.kTable then
    (Except.error (Exn.SQLExecError "Unrecongized statement"), w)
  else
    let name := statement.name
    if name = Tables.TABLE_NAME ∨ name = Columns.TABLE_NAME then
      (Except.error (Exn.SQLExecError "Cannot drop a schema table."), w)
    else
      let filter : ValueDict := [("table_name", Value.text name)]
      let rows := Relation.select w.columns (some filter)
      match SQLExec.del_each Catalog.columns rows w with
      | (Except.error e, w1) => (Except.error e, w1)
      | (Except.ok _, w1) =>
        match DbRelation.drop name w1 with
        | (Except.error e, w2) => (Except.error e, w2)
        | (Except.ok _, w2) =>
          match Relation.select w2.tables (some filter) with
          | [] => (Except.error Exn.undefined_behavior, w2)
          | h :: _ =>
            match DbRelation.del Catalog.tables h w2 with
            | (Except.error e, w3) => (Except.error e, w3)
            | (Except.ok _, w3) =>
              (Except.ok { column_names := none, column_attributes := none, rows := none,
                           message := "Dropped table " ++ statement.name }, w3)

/-- The loop of SQLExec::show_tables over the selected handles: each row is
projected, its `table_name` read with `at`, and the row kept unless it is named
after the tables or the columns relation. -/
def SQLExec.show_tables_rows (w : World) (names : List Identifier) :
    Handles → List ValueDict → Except Exn (List ValueDict)
  | [], rows => Except.ok rows
  | table :: rest, rows =>
    let row := Relation.project w.tables table names
    match ValueDict.get row "table_name" with
    | none => Except.error Exn.out_of_range
    | some v =>
      let tableName := v.s
      if tableName ≠ Tables.TABLE_NAME ∧ tableName ≠ Columns.TABLE_NAME then
        SQLExec.show_tables_rows w names rest (rows ++ [row])
      else
        SQLExec.show_tables_rows w names rest rows

/-- SQLExec::show_tables. -/
def SQLExec.show_tables (w : World) : Except Exn QueryResult × World :=
  let schema := Tables.get_columns Tables.TABLE_NAME w
  let names := schema.1
  let attributes := schema.2
  let tableResult := Relation.select w.tables none
  match SQLExec.show_tables_rows w names tableResult [] with
  | Except.error e => (Except.error e, w)
  | Except.ok rows =>
    (Except.ok { column_names := some names, column_attributes := some attributes,
                 rows := some rows,
                 message := "successfully returned " ++ toString rows.length ++ " rows" }, w)

/-- SQLExec::show_columns. -/
def SQLExec.show_columns (statement : ShowStatement) (w : World) : Except Exn QueryResult × World :=
  let names : List Identifier := ["table_name", "column_name", "data_type"]
  let attributes : List ColumnAttribute := [{ data_type := DataType.TEXT }]
  let filter : ValueDict := [("table_name", Value.text statement.tableName)]
  let colResult := Relation.select w.columns (some filter)
  let rows := colResult.map (fun row => Relation.project w.columns row names)
  (Except.ok { column_names := some names, column_attributes := some attributes,
               rows := some rows,
               message := "successfully returned " ++ toString rows.length ++ " rows" }, w)

/-- SQLExec::show. -/
def SQLExec.show (statement : ShowStatement) (w : World) : Except Exn QueryResult × World :=
  match statement.type with
  | ShowStatement.EntityType.kTables => SQLExec.show_tables w
  | ShowStatement.EntityType.kColumns => SQLExec.show_columns statement w
  | _ => (Except.ok (QueryResult.ofMessage "not implemented"), w)

/-- SQLExec::execute.  The catalog accessors `SQLExec::tables` / `SQLExec::indices`
are stateless views of the catalog relations of the world, so their lazy
construction changes no relation; a `DbRelationError` of the handler is rethrown
as `SQLExecError`. -/
def SQLExec.execute (statement : SQLStatement) (w : World) : Except Exn QueryResult × World :=
  let r := match statement with
    | SQLStatement.kStmtCreate s => SQLExec.create s w
    | SQLStatement.kStmtDrop s => SQLExec.drop s w
    | SQLStatement.kStmtShow s => SQLExec.show s w
    | SQLStatement.other _ => (Except.ok (QueryResult.ofMessage "not implemented"), w)
  match r with
  | (Except.error (Exn.DbRelationError m), w1) =>
    (Except.error (Exn.SQLExecError ("DbRelationError: " ++ m)), w1)
  | other => other

/-! ## Index handlers (SQLExec.cpp) -/

/-- Modelled from the spec: `get_index(table_name, index_name) -> index handle`
(index contract of section 6; the index catalog accessor is not part of the
sources).  The handle names the physical index of that table under that name. -/
def Indices.get_index (table_name index_name : Identifier) (_w : World) :
    Identifier × Identifier :=
  (table_name, index_name)

/-- Modelled from the spec: `drop()` on an index removes its physical structure
(section 6); dropping a missing index is a relation error (section 7). -/
def DbIndex.drop (index : Identifier × Identifier) (w : World) : Except Exn Unit × World :=
  let w1 := w.logged (Call.drop_index index.1 index.2)
  match w.fault with
  | some m => (Except.error (Exn.DbRelationError m), w1)
  | none =>
    if index ∈ w1.physical_indices then
      (Except.ok (),
        { w1 with physical_indices := w1.physical_indices.filter (fun x => decide (x ≠ index)) })
    else
      (Except.error (Exn.DbRelationError (index.2 ++ " does not exist")), w1)

/-- SQLExec::show_index of SQLExec.cpp.  The count of the message is held in an
`unsigned int` (`unsigned int size = handles->size();`), 32 bits wide: the number
of selected handles is narrowed modulo `2 ^ 32` before it is printed. -/
def SQLExec.show_index (statement : ShowStatement) (w : World) : Except Exn QueryResult × World :=
  let colNames : List Identifier :=
    ["table_name", "index_name", "seq_in_index", "column_name", "index_type", "is_unique"]
  let colAttr : List ColumnAttribute := [{ data_type := DataType.TEXT }]
  let tableName := statement.tableName
  let filter : ValueDict := ValueDict.assign [] "table_name" (Value.text tableName)
  let handles := Relation.select w.indices (some filter)
  let size := handles.length % 2 ^ 32
  let rows := handles.map (fun hd => Relation.project w.indices hd colNames)
  (Except.ok { column_names := some colNames, column_attributes := some colAttr,
               rows := some rows,
               message := "successfully returned " ++ toString size ++ " rows" }, w)

/-- SQLExec::drop_index of SQLExec.cpp.  The deletion loop counts with an
`unsigned int i` compared with `index_handles->size()`: with fewer than `2 ^ 32`
selected handles, the only case in which that loop can run to its end, it calls
`del` once on each handle in selection order, which is `del_each`. -/
def SQLExec.drop_index (statement : DropStatement) (w : World) : Except Exn QueryResult × World :=
  if statement.type ≠ DropStatement.EntityType.kIndex then
    (Except.ok (QueryResult.ofMessage "Unrecognized DROP statement"), w)
  else
    let table_name := statement.name
    let index_name := statement.indexName
    let index := Indices.get_index table_name index_name w
    let filter : ValueDict :=
      ValueDict.assign (ValueDict.assign [] "table_name" (Value.text table_name))
        "index_name" (Value.text index_name)
    let index_handles := Relation.select w.indices (some filter)
    match DbIndex.drop index w with
    | (Except.error e, w1) => (Except.error e, w1)
    | (Except.ok _, w1) =>
      match SQLExec.del_each Catalog.indices index_handles w1 with
      | (Except.error e, w2) => (Except.error e, w2)
      | (Except.ok _, w2) => (Except.ok (QueryResult.ofMessage ("dropped index " ++ index_name)), w2)

/-! ## Result rendering (SQLExec.cpp, `operator<<`) -/

/-- The `switch` of `operator<<` on the tag of a value: what is written for it. -/
def QueryResult.print_value (value : Value) : String :=
  match value.data_type with
  | DataType.INT => toString value.n
  | DataType.TEXT => "\x22" ++ value.s ++ "\x22"
  | DataType.BOOLEAN => if value.n = 0 then "false" else "true"
  | _ => "???"

/-- The inner loop of `operator<<` over the column names for one row, then `endl`:
each value is read with `row->at(column_name)` (which throws `std::out_of_range`
on an absent key), written, and followed by a space.  `out` is the text the
stream holds; it is returned also when the loop is left by the exception. -/
def QueryResult.print_row (row : ValueDict) : List Identifier → String → Except Exn Unit × String
  | [], out => (Except.ok (), out ++ "\n")
  | column_name :: rest, out =>
    match ValueDict.get row column_name with
    | none => (Except.error Exn.out_of_range, out)
    | some value =>
      QueryResult.print_row row rest (out ++ QueryResult.print_value value ++ " ")

/-- The loop of `operator<<` over the rows. -/
def QueryResult.print_rows (column_names : List Identifier) :
    List ValueDict → String → Except Exn Unit × String
  | [], out => (Except.ok (), out)
  | row :: rest, out =>
    match QueryResult.print_row row column_names out with
    | (Except.error e, out1) => (Except.error e, out1)
    | (Except.ok _, out1) => QueryResult.print_rows column_names rest out1

/-- The stream insertion `operator<<(ostream&, const QueryResult&)`: `out` is the text
the stream holds before, the result is the text it holds after.  With column
names present the rows are dereferenced, which is undefined when they are absent. -/
def QueryResult.print (qres : QueryResult) (out : String) : Except Exn Unit × String :=
  match qres.column_names with
  | some column_names =>
    let out1 := column_names.foldl (fun o column_name => o ++ column_name ++ " ") out
    let out2 := out1 ++ "\n" ++ "+"
    let out3 := (List.range column_names.length).foldl (fun o _ => o ++ "----------+") out2
    let out4 := out3 ++ "\n"
    match qres.rows with
    | none => (Except.error Exn.undefined_behavior, out4)
    | some rows =>
      match QueryResult.print_rows column_names rows out4 with
      | (Except.error e, out5) => (Except.error e, out5)
      | (Except.ok _, out5) => (Except.ok (), out5 ++ qres.message)
  | none => (Except.ok (), out ++ qres.message)

/-! ## The second source file (SQLexec.cpp)

`src/SQLexec.cpp` is an earlier state of the same class: its `show_index` and
`drop_index` are stubs, every other function has its own copy of the text.  Its
functions are embedded again here, under `Variant`, from that file. -/

/-- SQLExec::column_definition of SQLexec.cpp: the column name and attribute of a definition;
only INT and TEXT are supported. -/
def Variant.SQLExec.column_definition (col : ColumnDefinition) : Except Exn (Identifier × ColumnAttribute) :=
  match col.type with
  | ColumnDefinition.DataType.INT => Except.ok (col.name, { data_type := DataType.INT })
  | ColumnDefinition.DataType.TEXT => Except.ok (col.name, { data_type := DataType.TEXT })
  | _ => Except.error (Exn.SQLExecError "Not supported")

/-- The `for` loop of SQLExec::create of SQLexec.cpp over the column definitions: each column in
turn is translated and inserted into the columns relation, `row` being reused
and `columnHandler` growing by the handle of every inserted row.  The handles
collected so far are returned also when the loop is left by an exception. -/
def Variant.SQLExec.create_columns : List ColumnDefinition → ValueDict → Handles → World →
    Except Exn ValueDict × Handles × World
  | [], row, columnHandler, w => (Except.ok row, columnHandler, w)
  | column :: rest, row, columnHandler, w =>
    match Variant.SQLExec.column_definition column with
    | Except.error e => (Except.error e, columnHandler, w)
    | Except.ok (name, column_attribute) =>
      let type := if column_attribute.get_data_type = DataType.TEXT then "TEXT" else "INT"
      let row1 := ValueDict.assign (ValueDict.assign row "data_type" (Value.text type))
        "column_name" (Value.text name)
      match DbRelation.insert Catalog.columns row1 w with
      | (Except.error e, w1) => (Except.error e, columnHandler, w1)
      | (Except.ok h, w1) => Variant.SQLExec.create_columns rest row1 (columnHandler ++ [h]) w1

/-- The inner `try` block of SQLExec::create of SQLexec.cpp: the column loop, then the physical
creation of the table (plain or if-not-exists). -/
def Variant.SQLExec.create_try (statement : CreateStatement) (row : ValueDict) (w : World) :
    Except Exn Unit × Handles × World :=
  match Variant.SQLExec.create_columns statement.columns row [] w with
  | (Except.error e, columnHandler, w1) => (Except.error e, columnHandler, w1)
  | (Except.ok _, columnHandler, w1) =>
    match (if statement.ifNotExists then DbRelation.create_if_not_exists statement.tableName w1
           else DbRelation.create statement.tableName w1) with
    | (Except.error e, w2) => (Except.error e, columnHandler, w2)
    | (Except.ok _, w2) => (Except.ok (), columnHandler, w2)

/-- The loop `for (handle : handles) relation.del(handle)` of SQLexec.cpp: it is left at the first
deletion that raises. -/
def Variant.SQLExec.del_each (c : Catalog) : Handles → World → Except Exn Unit × World
  | [], w => (Except.ok (), w)
  | h :: rest, w =>
    match DbRelation.del c h w with
    | (Except.error e, w1) => (Except.error e, w1)
    | (Except.ok _, w1) => Variant.SQLExec.del_each c rest w1

/-- The pattern `try { body } catch (DbRelationError &e) {}` of SQLexec.cpp: a relation error of the
body is swallowed (`none`), any other exception escapes (`some e`). -/
def Variant.SQLExec.swallow (r : Except Exn Unit × World) : Option Exn × World :=
  match r with
  | (Except.ok _, w) => (none, w)
  | (Except.error (Exn.DbRelationError _), w) => (none, w)
  | (Except.error e, w) => (some e, w)

/-- SQLExec::create of SQLexec.cpp.  The tables row is inserted outside the `try` blocks; a
`DbRelationError` of the inner block is handled by deleting the collected columns
rows, then the tables row, and rethrown; any other exception leaves directly. -/
def Variant.SQLExec.create (statement : CreateStatement) (w : World) : Except Exn QueryResult × World :=
  let row : ValueDict := [("table_name", Value.text statement.tableName)]
  match DbRelation.insert Catalog.tables row w with
  | (Except.error e, w1) => (Except.error e, w1)
  | (Except.ok tableHandler, w1) =>
    match Variant.SQLExec.create_try statement row w1 with
    | (Except.ok _, _, w2) =>
      (Except.ok (QueryResult.ofMessage ("Created new table: " ++ statement.tableName)), w2)
    | (Except.error (Exn.DbRelationError m), columnHandler, w2) =>
      match Variant.SQLExec.swallow (Variant.SQLExec.del_each Catalog.columns columnHandler w2) with
      | (some e, w3) => (Except.error e, w3)
      | (none, w3) =>
        match Variant.SQLExec.swallow (DbRelation.del Catalog.tables tableHandler w3) with
        | (some e, w4) => (Except.error e, w4)
        | (none, w4) => (Except.error (Exn.DbRelationError m), w4)
    | (Except.error e, _, w2) => (Except.error e, w2)

/-- SQLExec::drop of SQLexec.cpp. -/
def Variant.SQLExec.drop (statement : DropStatement) (w : World) : Except Exn QueryResult × World :=
  if statement.type ≠ DropStatement.EntityType.kTable then
    (Except.error (Exn.SQLExecError "Unrecongized statement"), w)
  else
    let name := statement.name
    if name = Tables.TABLE_NAME ∨ name = Columns.TABLE_NAME then
      (Except.error (Exn.SQLExecError "Cannot drop a schema table."), w)
    else
      let filter : ValueDict := [("table_name", Value.text name)]
      let rows := Relation.select w.columns (some filter)
      match Variant.SQLExec.del_each Catalog.columns rows w with
      | (Except.error e, w1) => (Except.error e, w1)
      | (Except.ok _, w1) =>
        match DbRelation.drop name w1 with
        | (Except.error e, w2) => (Except.error e, w2)
        | (Except.ok _, w2) =>
          match Relation.select w2.tables (some filter) with
          | [] => (Except.error Exn.undefined_behavior, w2)
          | h :: _ =>
            match DbRelation.del Catalog.tables h w2 with
            | (Except.error e, w3) => (Except.error e, w3)
            | (Except.ok _, w3) =>
              (Except.ok { column_names := none, column_attributes := none, rows := none,
                           message := "Dropped table " ++ statement.name }, w3)

/-- The loop of SQLExec::show_tables of SQLexec.cpp over the selected handles: each row is
projected, its `table_name` read with `at`, and the row kept unless it is named
after the tables or the columns relation. -/
def Variant.SQLExec.show_tables_rows (w : World) (names : List Identifier) :
    Handles → List ValueDict → Except Exn (List ValueDict)
  | [], rows => Except.ok rows
  | table :: rest, rows =>
    let row := Relation.project w.tables table names
    match ValueDict.get row "table_name" with
    | none => Except.error Exn.out_of_range
    | some v =>
      let tableName := v.s
      if tableName ≠ Tables.TABLE_NAME ∧ tableName ≠ Columns.TABLE_NAME then
        Variant.SQLExec.show_tables_rows w names rest (rows ++ [row])
      else
        Variant.SQLExec.show_tables_rows w names rest rows

/-- SQLExec::show_tables of SQLexec.cpp. -/
def Variant.SQLExec.show_tables (w : World) : Except Exn QueryResult × World :=
  let schema := Tables.get_columns Tables.TABLE_NAME w
  let names := schema.1
  let attributes := schema.2
  let tableResult := Relation.select w.tables none
  match Variant.SQLExec.show_tables_rows w names tableResult [] with
  | Except.error e => (Except.error e, w)
  | Except.ok rows =>
    (Except.ok { column_names := some names, column_attributes := some attributes,
                 rows := some rows,
                 message := "successfully returned " ++ toString rows.length ++ " rows" }, w)

/-- SQLExec::show_columns of SQLexec.cpp. -/
def Variant.SQLExec.show_columns (statement : ShowStatement) (w : World) : Except Exn QueryResult × World :=
  let names : List Identifier := ["table_name", "column_name", "data_type"]
  let attributes : List ColumnAttribute := [{ data_type := DataType.TEXT }]
  let filter : ValueDict := [("table_name", Value.text statement.tableName)]
  let colResult := Relation.select w.columns (some filter)
  let rows := colResult.map (fun row => Relation.project w.columns row names)
  (Except.ok { column_names := some names, column_attributes := some attributes,
               rows := some rows,
               message := "successfully returned " ++ toString rows.length ++ " rows" }, w)

/-- SQLExec::show of SQLexec.cpp. -/
def Variant.SQLExec.show (statement : ShowStatement) (w : World) : Except Exn QueryResult × World :=
  match statement.type with
  | ShowStatement.EntityType.kTables => Variant.SQLExec.show_tables w
  | ShowStatement.EntityType.kColumns => Variant.SQLExec.show_columns statement w
  | _ => (Except.ok (QueryResult.ofMessage "not implemented"), w)

/-- SQLExec::execute of SQLexec.cpp.  The catalog accessors `SQLExec::tables` / `SQLExec::indices`
are stateless views of the catalog relations of the world, so their lazy
construction changes no relation; a `DbRelationError` of the handler is rethrown
as `SQLExecError`. -/
def Variant.SQLExec.execute (statement : SQLStatement) (w : World) : Except Exn QueryResult × World :=
  let r := match statement with
    | SQLStatement.kStmtCreate s => Variant.SQLExec.create s w
    | SQLStatement.kStmtDrop s => Variant.SQLExec.drop s w
    | SQLStatement.kStmtShow s => Variant.SQLExec.show s w
    | SQLStatement.other _ => (Except.ok (QueryResult.ofMessage "not implemented"), w)
  match r with
  | (Except.error (Exn.DbRelationError m), w1) =>
    (Except.error (Exn.SQLExecError ("DbRelationError: " ++ m)), w1)
  | other => other

/-- SQLExec::show_index of SQLexec.cpp: a stub. -/
def Variant.SQLExec.show_index (_statement : ShowStatement) (w : World) :
    Except Exn QueryResult × World :=
  (Except.ok (QueryResult.ofMessage "show index not implemented"), w)

/-- SQLExec::drop_index of SQLexec.cpp: a stub. -/
def Variant.SQLExec.drop_index (_statement : DropStatement) (w : World) :
    Except Exn QueryResult × World :=
  (Except.ok (QueryResult.ofMessage "drop index not implemented"), w)

/-- The world before any user statement, with nothing scheduled to fail (only the
rows and relations named by the arguments exist). -/
def World.empty : World :=
  { tables := [], columns := [], indices := [], physical := [], physical_indices := [],
    faults := [], calls := [] }

/-! ## Vocabulary of the statements proved below -/

/-- The row that the column loop of SQLExec::create inserts into the columns relation
for column `c` of table `T`: `table_name` from the tables row, then `data_type`
and `column_name` as assigned in the loop. -/
def SQLExec.column_row (T : Identifier) (c : ColumnDefinition) : ValueDict :=
  [("table_name", Value.text T),
   ("data_type", Value.text (if c.type = ColumnDefinition.DataType.TEXT then "TEXT" else "INT")),
   ("column_name", Value.text c.name)]

/-- No fault is scheduled for the next `k` mutating storage calls. -/
abbrev World.quiet (w : World) (k : Nat) : Prop := ∀ f ∈ w.faults.take k, f = none
/-- The table a catalog row is named after, as read by `row->at("table_name").s`;
`none` when the row has no `table_name`. -/
def ValueDict.table_name (row : ValueDict) : Option Identifier :=
  (ValueDict.get row "table_name").map (fun v => v.s)

/-! ## Concrete statements and contexts used as examples -/

/-- The statement `CREATE TABLE T (a INT, b TEXT)`. -/
def Sample.createT : CreateStatement :=
  { tableName := "T",
    columns := [{ name := "a", type := ColumnDefinition.DataType.INT },
                { name := "b", type := ColumnDefinition.DataType.TEXT }],
    ifNotExists := false }

/-- The statement `CREATE TABLE IF NOT EXISTS T (a INT, b TEXT)`. -/
def Sample.createTIfNotExists : CreateStatement :=
  { tableName := "T",
    columns := [{ name := "a", type := ColumnDefinition.DataType.INT },
                { name := "b", type := ColumnDefinition.DataType.TEXT }],
    ifNotExists := true }

/-- The statement `CREATE TABLE T (a INT, b DOUBLE)`, whose second column has an
unsupported type. -/
def Sample.createUnsupported : CreateStatement :=
  { tableName := "T",
    columns := [{ name := "a", type := ColumnDefinition.DataType.INT },
                { name := "b", type := ColumnDefinition.DataType.DOUBLE }],
    ifNotExists := false }

/-- The statement `DROP TABLE T`. -/
def Sample.dropT : DropStatement :=
  { type := DropStatement.EntityType.kTable, name := "T", indexName := "" }

/-- The statement `DROP TABLE _tables`. -/
def Sample.dropTables : DropStatement :=
  { type := DropStatement.EntityType.kTable, name := Tables.TABLE_NAME, indexName := "" }

/-- The statement `DROP TABLE _indices`. -/
def Sample.dropIndices : DropStatement :=
  { type := DropStatement.EntityType.kTable, name := Indices.TABLE_NAME, indexName := "" }

/-- The statement `SHOW COLUMNS FROM T`. -/
def Sample.showColumnsT : ShowStatement :=
  { type := ShowStatement.EntityType.kColumns, tableName := "T" }

/-- A context in which the physical creation (the fourth mutating call of
`CREATE TABLE T (a INT, b TEXT)`) fails and every later call succeeds. -/
def Sample.createFails : World :=
  { World.empty with faults := [none, none, none, some "disk full"] }

/-- A context in which the insertion of the second column fails, and then both
the deletion of the first columns row and the deletion of the tables row fail. -/
def Sample.undoFails : World :=
  { World.empty with faults := [none, none, some "no space", some "busy", some "locked"] }

/-- A bootstrapped catalog: the three catalog relations exist and are listed in
the tables relation, the columns relation describes the indices relation by two
of its columns, and a user table `T` is listed. -/
def Sample.catalog : World :=
  { tables := [some [("table_name", Value.text "_tables")],
               some [("table_name", Value.text "_columns")],
               some [("table_name", Value.text "_indices")],
               some [("table_name", Value.text "T")]],
    columns := [some [("table_name", Value.text "_indices"), ("data_type", Value.text "TEXT"),
                      ("column_name", Value.text "table_name")],
                some [("table_name", Value.text "_indices"), ("data_type", Value.text "TEXT"),
                      ("column_name", Value.text "index_name")],
                some [("table_name", Value.text "T"), ("data_type", Value.text "INT"),
                      ("column_name", Value.text "a")]],
    indices := [],
    physical := ["_tables", "_columns", "_indices", "T"],
    physical_indices := [],
    faults := [],
    calls := [] }

/-- The statement `DROP INDEX I FROM T`. -/
def Sample.dropIndexI : DropStatement :=
  { type := DropStatement.EntityType.kIndex, name := "T", indexName := "I" }

/-- The statement `SHOW INDEX FROM T`. -/
def Sample.showIndexT : ShowStatement :=
  { type := ShowStatement.EntityType.kIndex, tableName := "T" }

/-- The indices row of column `column_name`, at position `seq`, of index `index_name` on `table_name`. -/
def Sample.indexRow (table_name index_name : Identifier) (seq : Int) (column_name : Identifier)
    (unique : Int) : ValueDict :=
  [("table_name", Value.text table_name), ("index_name", Value.text index_name),
   ("seq_in_index", Value.int seq), ("column_name", Value.text column_name),
   ("index_type", Value.text "BTREE"), ("is_unique", Value.boolean unique)]

/-- A catalog with the user table `T (a INT, b TEXT)`, the index `I` on `T (a, b)`,
the index `J` on `T (b)` and an index `I` on another table `U (a)`. -/
def Sample.indexed : World :=
  { tables := [some [("table_name", Value.text "T")], some [("table_name", Value.text "U")]],
    columns := [some [("table_name", Value.text "T"), ("data_type", Value.text "INT"),
                      ("column_name", Value.text "a")],
                some [("table_name", Value.text "T"), ("data_type", Value.text "TEXT"),
                      ("column_name", Value.text "b")],
                some [("table_name", Value.text "U"), ("data_type", Value.text "INT"),
                      ("column_name", Value.text "a")]],
    indices := [some (Sample.indexRow "T" "I" 1 "a" 1), some (Sample.indexRow "T" "I" 2 "b" 1),
                some (Sample.indexRow "T" "J" 1 "b" 0), some (Sample.indexRow "U" "I" 1 "a" 1)],
    physical := ["T", "U"],
    physical_indices := [("T", "I"), ("T", "J"), ("U", "I")],
    faults := [],
    calls := [] }

/-- A context in which the physical creation of `CREATE TABLE T (a INT, b TEXT)`
fails, then the deletion of the first columns row fails, and nothing else would. -/
def Sample.firstUndoFails : World :=
  { World.empty with faults := [none, none, none, some "disk full", some "busy"] }

/-- The bootstrapped catalog with the third mutating call scheduled to fail: for
`DROP TABLE T` that is the deletion of the tables row. -/
def Sample.tablesDelFails : World :=
  { Sample.catalog with faults := [none, none, some "locked"] }

/-! ## Lemmas: the relation model -/

theorem rowsFrom_append (r s : Relation) (i : Nat) :
    Relation.rowsFrom i (r ++ s) = Relation.rowsFrom i r ++ Relation.rowsFrom (i + r.length) s := by
  induction r generalizing i with
  | nil => simp [Relation.rowsFrom]
  | cons a t ih =>
    have e : i + 1 + t.length = i + (t.length + 1) := by omega
    rw [List.cons_append]
    cases a with
    | none => simp only [Relation.rowsFrom, List.length_cons, ih, e]
    | some x => simp only [Relation.rowsFrom, List.length_cons, ih, e, List.cons_append]

theorem rowsFrom_bounds (r : Relation) (i h : Nat) (x : ValueDict)
    (hp : (h, x) ∈ Relation.rowsFrom i r) : i ≤ h ∧ h < i + r.length := by
  induction r generalizing i with
  | nil => simp [Relation.rowsFrom] at hp
  | cons a t ih =>
    cases a with
    | none =>
      simp only [Relation.rowsFrom] at hp
      have := ih (i + 1) hp
      simp only [List.length_cons]; omega
    | some y =>
      simp only [Relation.rowsFrom, List.mem_cons, Prod.mk.injEq] at hp
      rcases hp with ⟨rfl, _⟩ | hp
      · simp
      · have := ih (i + 1) hp
        simp only [List.length_cons]; omega

theorem rowsFrom_set_none (r : Relation) (i h : Nat) :
    Relation.rowsFrom i (r.set h none) =
      (Relation.rowsFrom i r).filter (fun p => !decide (p.1 = i + h)) := by
  induction r generalizing i h with
  | nil => simp [Relation.rowsFrom]
  | cons a t ih =>
    have keep : (Relation.rowsFrom (i + 1) t).filter (fun p => !decide (p.1 = i)) =
        Relation.rowsFrom (i + 1) t := by
      apply List.filter_eq_self.mpr
      rintro ⟨k, x⟩ hp
      have := rowsFrom_bounds t (i + 1) k x hp
      simp only [Bool.not_eq_true', decide_eq_false_iff_not]
      omega
    cases h with
    | zero =>
      cases a with
      | none => simp [Relation.rowsFrom, keep]
      | some x => simp [Relation.rowsFrom, keep]
    | succ h =>
      have e : i + (h + 1) = (i + 1) + h := by omega
      cases a with
      | none => simp only [List.set_cons_succ, Relation.rowsFrom, ih, e]
      | some x =>
        simp only [List.set_cons_succ, Relation.rowsFrom, ih, e]
        rw [List.filter_cons_of_pos]
        simp only [Bool.not_eq_true', decide_eq_false_iff_not]
        omega

theorem rowsFrom_get (r : Relation) (i h : Nat) (x : ValueDict)
    (hp : (h, x) ∈ Relation.rowsFrom i r) : r[h - i]? = some (some x) := by
  induction r generalizing i with
  | nil => simp [Relation.rowsFrom] at hp
  | cons a t ih =>
    have step : (h, x) ∈ Relation.rowsFrom (i + 1) t → (a :: t)[h - i]? = some (some x) := by
      intro hp
      have hb := rowsFrom_bounds t (i + 1) h x hp
      have e : h - i = (h - (i + 1)) + 1 := by omega
      rw [e, List.getElem?_cons_succ]
      exact ih (i + 1) hp
    cases a with
    | none =>
      simp only [Relation.rowsFrom] at hp
      exact step hp
    | some y =>
      simp only [Relation.rowsFrom, List.mem_cons, Prod.mk.injEq] at hp
      rcases hp with ⟨rfl, rfl⟩ | hp
      · simp
      · exact step hp

theorem rowsFrom_map_some (xs : List ValueDict) (i : Nat) :
    Relation.rowsFrom i (xs.map some) = (List.range' i xs.length).zip xs := by
  induction xs generalizing i with
  | nil => simp [Relation.rowsFrom]
  | cons x t ih => simp [Relation.rowsFrom, ih, List.range'_succ]

/-! ## Lemmas: storage calls -/

theorem insert_ok (c : Catalog) (row : ValueDict) (w w1 : World) (h : Handle)
    (hi : DbRelation.insert c row w = (Except.ok h, w1)) :
    h = (w.rel c).length ∧
      w1 = (w.logged (Call.insert c row)).setRel c (w.rel c ++ [some row]) := by
  unfold DbRelation.insert at hi
  cases hf : w.fault with
  | some m => simp [hf] at hi
  | none =>
    simp only [hf, Prod.mk.injEq, Except.ok.injEq] at hi
    obtain ⟨h1, h2⟩ := hi
    refine ⟨?_, ?_⟩
    · rw [← h1]; cases c <;> rfl
    · rw [← h2]; cases c <;> rfl

theorem del_ok (c : Catalog) (h : Handle) (w w1 : World) (u : Unit)
    (hd : DbRelation.del c h w = (Except.ok u, w1)) :
    w1 = (w.logged (Call.del c h)).setRel c ((w.rel c).set h none) := by
  unfold DbRelation.del at hd
  cases hf : w.fault with
  | some m => simp [hf] at hd
  | none =>
    simp only [hf, Prod.mk.injEq, Except.ok.injEq] at hd
    rw [← hd.2]; cases c <;> rfl

theorem del_error (c : Catalog) (h : Handle) (w w1 : World) (e : Exn)
    (hd : DbRelation.del c h w = (Except.error e, w1)) :
    (∃ m, e = Exn.DbRelationError m) ∧ w1 = w.logged (Call.del c h) := by
  unfold DbRelation.del at hd
  cases hf : w.fault with
  | some m =>
    simp only [hf, Prod.mk.injEq, Except.error.injEq] at hd
    exact ⟨⟨m, hd.1.symm⟩, hd.2.symm⟩
  | none => simp [hf] at hd

theorem insert_error (c : Catalog) (row : ValueDict) (w w1 : World) (e : Exn)
    (hi : DbRelation.insert c row w = (Except.error e, w1)) :
    (∃ m, e = Exn.DbRelationError m) ∧ w1 = w.logged (Call.insert c row) := by
  unfold DbRelation.insert at hi
  cases hf : w.fault with
  | some m =>
    simp only [hf, Prod.mk.injEq, Except.error.injEq] at hi
    exact ⟨⟨m, hi.1.symm⟩, hi.2.symm⟩
  | none => simp [hf] at hi

/-- What the column loop of `create` leaves behind, however it ends: the columns
relation has grown by the rows inserted, whose handles are the ones collected. -/
theorem create_columns_effect (cols : List ColumnDefinition) (row : ValueDict) (hs hs' : Handles)
    (w w' : World) (res : Except Exn ValueDict)
    (hc : SQLExec.create_columns cols row hs w = (res, hs', w')) :
    ∃ added : List ValueDict,
      w'.columns = w.columns ++ added.map some ∧
      hs' = hs ++ List.range' w.columns.length added.length ∧
      w'.tables = w.tables ∧ w'.indices = w.indices ∧ w'.physical = w.physical ∧
      w'.physical_indices = w.physical_indices := by
  induction cols generalizing row hs w with
  | nil =>
    simp only [SQLExec.create_columns, Prod.mk.injEq] at hc
    obtain ⟨-, rfl, rfl⟩ := hc
    exact ⟨[], by simp⟩
  | cons column rest ih =>
    unfold SQLExec.create_columns at hc
    cases hd : SQLExec.column_definition column with
    | error e =>
      simp only [hd, Prod.mk.injEq] at hc
      obtain ⟨-, rfl, rfl⟩ := hc
      exact ⟨[], by simp⟩
    | ok na =>
      obtain ⟨name, column_attribute⟩ := na
      simp only [hd] at hc
      generalize hrow : ValueDict.assign (ValueDict.assign row "data_type" _) "column_name" _ = row1 at hc
      cases hins : DbRelation.insert Catalog.columns row1 w with
      | mk r w1 =>
        cases r with
        | error e =>
          simp only [hins, Prod.mk.injEq] at hc
          obtain ⟨-, rfl, rfl⟩ := hc
          obtain ⟨-, rfl⟩ := insert_error _ _ _ _ _ hins
          exact ⟨[], by simp [World.logged]⟩
        | ok h =>
          simp only [hins] at hc
          obtain ⟨rfl, rfl⟩ := insert_ok _ _ _ _ _ hins
          obtain ⟨added, h1, h2, h3, h4, h5, h6⟩ := ih _ _ _ hc
          refine ⟨row1 :: added, ?_, ?_, ?_, ?_, ?_, ?_⟩
          · simpa [World.setRel, World.logged, World.rel] using h1
          · rw [h2]
            simp [World.setRel, World.logged, World.rel, List.range'_succ]
          · simpa [World.setRel, World.logged] using h3
          · simpa [World.setRel, World.logged] using h4
          · simpa [World.setRel, World.logged] using h5
          · simpa [World.setRel, World.logged] using h6

theorem create_catalog (name : Identifier) (w : World) :
    (DbRelation.create name w).2.tables = w.tables ∧
    (DbRelation.create name w).2.columns = w.columns ∧
    (DbRelation.create name w).2.indices = w.indices := by
  unfold DbRelation.create
  cases w.fault <;> simp only [] <;> (try split) <;> exact ⟨rfl, rfl, rfl⟩

theorem create_if_not_exists_catalog (name : Identifier) (w : World) :
    (DbRelation.create_if_not_exists name w).2.tables = w.tables ∧
    (DbRelation.create_if_not_exists name w).2.columns = w.columns ∧
    (DbRelation.create_if_not_exists name w).2.indices = w.indices := by
  unfold DbRelation.create_if_not_exists
  cases w.fault <;> simp only [] <;> (try split) <;> exact ⟨rfl, rfl, rfl⟩

theorem drop_catalog (name : Identifier) (w : World) :
    (DbRelation.drop name w).2.tables = w.tables ∧
    (DbRelation.drop name w).2.columns = w.columns ∧
    (DbRelation.drop name w).2.indices = w.indices := by
  unfold DbRelation.drop
  cases w.fault <;> simp only [] <;> (try split) <;> exact ⟨rfl, rfl, rfl⟩

/-- The inner `try` block of `create` changes the catalog only through the
column loop: the physical creation touches no catalog row. -/
theorem create_try_effect (statement : CreateStatement) (row : ValueDict) (hs : Handles)
    (w w' : World) (res : Except Exn Unit)
    (hc : SQLExec.create_try statement row w = (res, hs, w')) :
    ∃ added : List ValueDict,
      w'.columns = w.columns ++ added.map some ∧
      hs = List.range' w.columns.length added.length ∧
      w'.tables = w.tables ∧ w'.indices = w.indices := by
  unfold SQLExec.create_try at hc
  cases hcc : SQLExec.create_columns statement.columns row [] w with
  | mk r rest =>
    obtain ⟨hs1, w1⟩ := rest
    obtain ⟨added, h1, h2, h3, h4, -, -⟩ := create_columns_effect _ _ _ _ _ _ _ hcc
    cases r with
    | error e =>
      simp only [hcc, Prod.mk.injEq] at hc
      obtain ⟨-, rfl, rfl⟩ := hc
      exact ⟨added, h1, by simpa using h2, h3, h4⟩
    | ok row' =>
      simp only [hcc] at hc
      have hfr : ∀ p : Except Exn Unit × World,
          p = (if statement.ifNotExists = true then
                DbRelation.create_if_not_exists statement.tableName w1
              else DbRelation.create statement.tableName w1) →
          p.2.tables = w1.tables ∧ p.2.columns = w1.columns ∧ p.2.indices = w1.indices := by
        intro p hp
        rw [hp]
        split
        · exact create_if_not_exists_catalog _ _
        · exact create_catalog _ _
      generalize hq : (if statement.ifNotExists = true then
                DbRelation.create_if_not_exists statement.tableName w1
              else DbRelation.create statement.tableName w1) = q at hc
      obtain ⟨f1, f2, f3⟩ := hfr q hq.symm
      obtain ⟨qr, w2⟩ := q
      cases qr <;> simp only [Prod.mk.injEq] at hc <;> obtain ⟨-, rfl, rfl⟩ := hc <;>
        exact ⟨added, by rw [f2, h1], by simpa using h2, by rw [f1, h3], by rw [f3, h4]⟩

theorem quiet_succ (w : World) (k : Nat) (c : Call) (hq : w.quiet (k + 1)) :
    w.fault = none ∧ (w.logged c).quiet k := by
  unfold World.quiet at *
  unfold World.fault World.logged
  cases hf : w.faults with
  | nil => simp
  | cons f fs =>
    rw [hf] at hq
    simp only [List.take_succ_cons, List.mem_cons, forall_eq_or_imp] at hq
    exact ⟨by simpa using hq.1, by simpa using hq.2⟩

theorem assign_column_row (T : Identifier) (row : ValueDict) (a b : Value)
    (hrow : row = [("table_name", Value.text T)] ∨
      ∃ x y, row = [("table_name", Value.text T), ("data_type", x), ("column_name", y)]) :
    ValueDict.assign (ValueDict.assign row "data_type" a) "column_name" b =
      [("table_name", Value.text T), ("data_type", a), ("column_name", b)] := by
  rcases hrow with rfl | ⟨x, y, rfl⟩ <;> simp [ValueDict.assign]

theorem create_columns_ok (T : Identifier) (cols : List ColumnDefinition) (row : ValueDict)
    (hs : Handles) (w : World)
    (htypes : ∀ c ∈ cols, c.type = ColumnDefinition.DataType.INT ∨
      c.type = ColumnDefinition.DataType.TEXT)
    (hrow : row = [("table_name", Value.text T)] ∨
      ∃ x y, row = [("table_name", Value.text T), ("data_type", x), ("column_name", y)])
    (hq : w.quiet cols.length) :
    ∃ row', SQLExec.create_columns cols row hs w =
      (Except.ok row', hs ++ List.range' w.columns.length cols.length,
        { w with
          columns := w.columns ++ cols.map (fun c => some (SQLExec.column_row T c)),
          faults := w.faults.drop cols.length,
          calls := w.calls ++ cols.map (fun c => Call.insert Catalog.columns (SQLExec.column_row T c)) }) := by
  induction cols generalizing row hs w with
  | nil => exact ⟨row, by simp [SQLExec.create_columns]⟩
  | cons column rest ih =>
    have hty := htypes column (List.mem_cons_self _ _)
    have hrest : ∀ c ∈ rest, c.type = ColumnDefinition.DataType.INT ∨
        c.type = ColumnDefinition.DataType.TEXT := fun c hc => htypes c (List.mem_cons_of_mem _ hc)
    obtain ⟨hf, hq1⟩ := quiet_succ w rest.length
      (Call.insert Catalog.columns (SQLExec.column_row T column)) hq
    have hdef : ∃ ca : ColumnAttribute, SQLExec.column_definition column = Except.ok (column.name, ca) ∧
        (if ca.get_data_type = DataType.TEXT then "TEXT" else "INT") =
          (if column.type = ColumnDefinition.DataType.TEXT then "TEXT" else "INT") := by
      rcases hty with h | h
      · exact ⟨{ data_type := DataType.INT }, by simp [SQLExec.column_definition, h], by
          simp [ColumnAttribute.get_data_type, h]⟩
      · exact ⟨{ data_type := DataType.TEXT }, by simp [SQLExec.column_definition, h], by
          simp [ColumnAttribute.get_data_type, h]⟩
    obtain ⟨ca, hcd, hname⟩ := hdef
    have hrow1 := assign_column_row T row
      (Value.text (if column.type = ColumnDefinition.DataType.TEXT then "TEXT" else "INT"))
      (Value.text column.name) hrow
    obtain ⟨row', hih⟩ := ih (SQLExec.column_row T column) (hs ++ [w.columns.length])
      ((w.logged (Call.insert Catalog.columns (SQLExec.column_row T column))).setRel Catalog.columns
        (w.columns ++ [some (SQLExec.column_row T column)])) hrest
      (Or.inr ⟨_, _, rfl⟩) hq1
    refine ⟨row', ?_⟩
    unfold SQLExec.create_columns
    simp only [hcd, hname, hrow1]
    have hins : DbRelation.insert Catalog.columns (SQLExec.column_row T column) w =
        (Except.ok w.columns.length,
          (w.logged (Call.insert Catalog.columns (SQLExec.column_row T column))).setRel
            Catalog.columns (w.columns ++ [some (SQLExec.column_row T column)])) := by
      unfold DbRelation.insert
      simp only [hf]
      rfl
    have hcr : [("table_name", Value.text T),
        ("data_type", Value.text (if column.type = ColumnDefinition.DataType.TEXT then "TEXT" else "INT")),
        ("column_name", Value.text column.name)] = SQLExec.column_row T column := rfl
    rw [hcr, hins]
    simp only
    rw [hih]
    simp [World.setRel, World.logged, List.range'_succ]

theorem create_physical_ok (T : Identifier) (flag : Bool) (w : World) (hf : w.fault = none)
    (hnew : flag = false → T ∉ w.physical) :
    (if flag = true then DbRelation.create_if_not_exists T w else DbRelation.create T w) =
      (Except.ok (),
        { w with
          physical := if T ∈ w.physical then w.physical else w.physical ++ [T],
          faults := w.faults.tail,
          calls := w.calls ++ [if flag = true then Call.create_if_not_exists T else Call.create T] }) := by
  cases flag with
  | true =>
    simp only [if_true, DbRelation.create_if_not_exists, hf, World.logged]
    split <;> rfl
  | false =>
    have hin := hnew rfl
    simp only [Bool.false_eq_true, if_false, DbRelation.create, hf, World.logged, hin]

/-- The run of `create` when every column is INT or TEXT and no storage call fails. -/
theorem create_run (statement : CreateStatement) (w : World)
    (htypes : ∀ c ∈ statement.columns, c.type = ColumnDefinition.DataType.INT ∨
      c.type = ColumnDefinition.DataType.TEXT)
    (hq : w.quiet (statement.columns.length + 2))
    (hnew : statement.ifNotExists = false → statement.tableName ∉ w.physical) :
    SQLExec.create statement w =
      (Except.ok (QueryResult.ofMessage ("Created new table: " ++ statement.tableName)),
        { tables := w.tables ++ [some [("table_name", Value.text statement.tableName)]],
          columns := w.columns ++
            statement.columns.map (fun c => some (SQLExec.column_row statement.tableName c)),
          indices := w.indices,
          physical := if statement.tableName ∈ w.physical then w.physical
            else w.physical ++ [statement.tableName],
          physical_indices := w.physical_indices,
          faults := w.faults.drop (statement.columns.length + 2),
          calls := w.calls ++
            [Call.insert Catalog.tables [("table_name", Value.text statement.tableName)]] ++
            statement.columns.map
              (fun c => Call.insert Catalog.columns (SQLExec.column_row statement.tableName c)) ++
            [if statement.ifNotExists then Call.create_if_not_exists statement.tableName
             else Call.create statement.tableName] }) := by
  have hq' : w.quiet ((statement.columns.length + 1) + 1) := hq
  obtain ⟨hf, hq1⟩ := quiet_succ w _
    (Call.insert Catalog.tables [("table_name", Value.text statement.tableName)]) hq'
  have hins : DbRelation.insert Catalog.tables [("table_name", Value.text statement.tableName)] w =
      (Except.ok w.tables.length,
        (w.logged (Call.insert Catalog.tables [("table_name", Value.text statement.tableName)])).setRel
          Catalog.tables (w.tables ++ [some [("table_name", Value.text statement.tableName)]])) := by
    unfold DbRelation.insert
    simp only [hf]
    rfl
  generalize hw1 : (w.logged (Call.insert Catalog.tables
    [("table_name", Value.text statement.tableName)])).setRel Catalog.tables
      (w.tables ++ [some [("table_name", Value.text statement.tableName)]]) = w1 at hins
  have hq1' : w1.quiet (statement.columns.length + 1) := by
    rw [← hw1]; exact hq1
  have hq2 : w1.quiet statement.columns.length := by
    intro f hf
    apply hq1' f
    exact (List.take_subset_take_left _ (Nat.le_succ _)) hf
  obtain ⟨row', hcols⟩ := create_columns_ok statement.tableName statement.columns
    [("table_name", Value.text statement.tableName)] [] w1 htypes (Or.inl rfl) hq2
  generalize hw2 : ({ w1 with
          columns := w1.columns ++ statement.columns.map
            (fun c => some (SQLExec.column_row statement.tableName c)),
          faults := w1.faults.drop statement.columns.length,
          calls := w1.calls ++ statement.columns.map
            (fun c => Call.insert Catalog.columns (SQLExec.column_row statement.tableName c)) } : World)
      = w2 at hcols
  have hf2 : w2.fault = none := by
    rw [← hw2]
    unfold World.fault
    simp only
    cases hd : w1.faults.drop statement.columns.length with
    | nil => rfl
    | cons f fs =>
      simp only [List.headD_cons]
      apply hq1' f
      have hm : f ∈ (w1.faults.drop statement.columns.length).take 1 := by simp [hd]
      rw [List.take_drop] at hm
      exact List.mem_of_mem_drop hm
  have hphys : w2.physical = w.physical := by rw [← hw2, ← hw1]; rfl
  have hstep := create_physical_ok statement.tableName statement.ifNotExists w2 hf2
    (by rw [hphys]; exact hnew)
  unfold SQLExec.create
  simp only [hins]
  unfold SQLExec.create_try
  simp only [hcols, hstep, Prod.mk.injEq, true_and]
  rw [hphys, ← hw2, ← hw1]
  simp only [World.logged, World.setRel, World.mk.injEq, true_and, List.append_assoc,
    List.tail_drop, List.drop_drop, List.singleton_append, List.cons_append, List.nil_append,
    List.append_cancel_left_eq, and_true, List.drop_tail]

/-- Projecting the selected handles yields the projections of the selected rows. -/
theorem select_project (r : Relation) (filter : Option ValueDict) (names : List Identifier) :
    (Relation.select r filter).map (fun h => Relation.project r h names) =
      ((Relation.rows r).filter (fun p =>
        match filter with
        | none => true
        | some f => ValueDict.satisfies p.2 f)).map (fun p => ValueDict.project p.2 names) := by
  unfold Relation.select
  rw [List.map_map]
  apply List.map_congr_left
  rintro ⟨h, x⟩ hp
  have hmem : (h, x) ∈ Relation.rowsFrom 0 r := (List.mem_filter.mp hp).1
  have hget := rowsFrom_get r 0 h x hmem
  simp only [Function.comp, Relation.project, Nat.sub_zero] at hget ⊢
  rw [hget]

theorem satisfies_column_row (T : Identifier) (c : ColumnDefinition) :
    ValueDict.satisfies (SQLExec.column_row T c) [("table_name", Value.text T)] = true := by
  simp [ValueDict.satisfies, SQLExec.column_row, ValueDict.get]

theorem project_column_row (T : Identifier) (c : ColumnDefinition) :
    ValueDict.project (SQLExec.column_row T c) ["table_name", "column_name", "data_type"] =
      [("table_name", Value.text T), ("column_name", Value.text c.name),
       ("data_type", Value.text (if c.type = ColumnDefinition.DataType.TEXT then "TEXT" else "INT"))] := by
  simp [ValueDict.project, SQLExec.column_row, ValueDict.get]

theorem referencing_append_column_rows (r : Relation) (T : Identifier) (cols : List ColumnDefinition)
    (hnone : Relation.referencing r T = []) :
    (Relation.referencing (r ++ cols.map (fun c => some (SQLExec.column_row T c))) T).map Prod.snd =
      cols.map (SQLExec.column_row T) := by
  unfold Relation.referencing Relation.rows at *
  rw [rowsFrom_append, List.filter_append, hnone, List.nil_append]
  have hmap : cols.map (fun c => some (SQLExec.column_row T c)) =
      (cols.map (SQLExec.column_row T)).map some := by
    rw [List.map_map]; rfl
  rw [hmap, rowsFrom_map_some]
  have hall : ∀ p ∈ (List.range' (0 + List.length r) (cols.map (SQLExec.column_row T)).length).zip
      (cols.map (SQLExec.column_row T)),
      ValueDict.satisfies p.2 [("table_name", Value.text T)] = true := by
    rintro ⟨h, x⟩ hp
    have hx : x ∈ cols.map (SQLExec.column_row T) := (List.of_mem_zip hp).2
    obtain ⟨c, -, rfl⟩ := List.mem_map.mp hx
    exact satisfies_column_row T c
  rw [List.filter_eq_self.mpr hall]
  rw [List.map_snd_zip]
  simp

theorem table_name_project (row : ValueDict) :
    ValueDict.table_name (ValueDict.project row ["table_name"]) = ValueDict.table_name row := by
  unfold ValueDict.table_name ValueDict.project
  cases h : ValueDict.get row "table_name" <;> simp [h, ValueDict.get]

/-- The loop of `show_tables` keeps, in order, the projected rows not named after
the tables or the columns relation, provided every projected row has a
`table_name` to read. -/
theorem show_tables_rows_ok (w : World) (hs : Handles) (acc : List ValueDict)
    (hwf : ∀ h ∈ hs,
      (ValueDict.get (Relation.project w.tables h ["table_name"]) "table_name").isSome) :
    SQLExec.show_tables_rows w ["table_name"] hs acc =
      Except.ok (acc ++ (hs.map (fun h => Relation.project w.tables h ["table_name"])).filter
        (fun row => decide (ValueDict.table_name row ≠ some Tables.TABLE_NAME ∧
          ValueDict.table_name row ≠ some Columns.TABLE_NAME))) := by
  induction hs generalizing acc with
  | nil => simp [SQLExec.show_tables_rows]
  | cons h rest ih =>
    have hh := hwf h (List.mem_cons_self _ _)
    have hrest := fun k hk => hwf k (List.mem_cons_of_mem _ hk)
    unfold SQLExec.show_tables_rows
    simp only []
    cases hg : ValueDict.get (Relation.project w.tables h ["table_name"]) "table_name" with
    | none => simp [hg] at hh
    | some v =>
      simp only [List.map_cons, hg]
      by_cases hu : v.s ≠ Tables.TABLE_NAME ∧ v.s ≠ Columns.TABLE_NAME
      · rw [if_pos hu, ih _ hrest, List.filter_cons_of_pos]
        · simp
        · simpa [ValueDict.table_name, hg] using hu
      · rw [if_neg hu, ih _ hrest, List.filter_cons_of_neg]
        simpa [ValueDict.table_name, hg] using hu

/-! ## Lemmas: deletion loops and drop -/

theorem rows_del_all (hs : Handles) (r : Relation) :
    Relation.rows (hs.foldl (fun r h => r.set h none) r) =
      (Relation.rows r).filter (fun p => !decide (p.1 ∈ hs)) := by
  induction hs generalizing r with
  | nil => simp
  | cons h rest ih =>
    rw [List.foldl_cons, ih]
    unfold Relation.rows
    rw [rowsFrom_set_none, List.filter_filter]
    congr 1
    funext p
    simp only [Nat.zero_add, List.mem_cons, Bool.and_eq_true, Bool.not_eq_true',
      decide_eq_false_iff_not]
    by_cases h1 : p.1 = h <;> by_cases h2 : p.1 ∈ rest <;> simp [h1, h2]

/-- A completed deletion loop has cleared the slot of every handle and touched
nothing else. -/
theorem del_each_ok (c : Catalog) (hs : Handles) (w w' : World) (u : Unit)
    (hd : SQLExec.del_each c hs w = (Except.ok u, w')) :
    w'.rel c = hs.foldl (fun r h => r.set h none) (w.rel c) ∧
      (∀ c', c' ≠ c → w'.rel c' = w.rel c') ∧ w'.physical = w.physical ∧
      w'.physical_indices = w.physical_indices := by
  induction hs generalizing w with
  | nil =>
    simp only [SQLExec.del_each, Prod.mk.injEq] at hd
    obtain ⟨-, rfl⟩ := hd
    simp
  | cons h rest ih =>
    unfold SQLExec.del_each at hd
    cases hdel : DbRelation.del c h w with
    | mk r w1 =>
      cases r with
      | error e => simp [hdel] at hd
      | ok u1 =>
        simp only [hdel] at hd
        have hw1 := del_ok _ _ _ _ _ hdel
        obtain ⟨i1, i2, i3, i4⟩ := ih _ hd
        subst hw1
        refine ⟨?_, ?_, ?_, ?_⟩
        · rw [i1]; cases c <;> rfl
        · intro c' hne
          rw [i2 c' hne]
          cases c <;> cases c' <;> first | rfl | exact absurd rfl hne
        · rw [i3]; cases c <;> rfl
        · rw [i4]; cases c <;> rfl

/-- Whatever a deletion loop raises is a relation error. -/
theorem del_each_error (c : Catalog) (hs : Handles) (w w' : World) (e : Exn)
    (hd : SQLExec.del_each c hs w = (Except.error e, w')) : ∃ m, e = Exn.DbRelationError m := by
  induction hs generalizing w with
  | nil => simp [SQLExec.del_each] at hd
  | cons h rest ih =>
    unfold SQLExec.del_each at hd
    cases hdel : DbRelation.del c h w with
    | mk r w1 =>
      cases r with
      | error e1 =>
        simp only [hdel, Prod.mk.injEq, Except.error.injEq] at hd
        obtain ⟨hm, -⟩ := del_error _ _ _ _ _ hdel
        rw [← hd.1]; exact hm
      | ok u1 =>
        simp only [hdel] at hd
        exact ih _ hd

theorem swallow_del_each (c : Catalog) (hs : Handles) (w : World) :
    SQLExec.swallow (SQLExec.del_each c hs w) = (none, (SQLExec.del_each c hs w).2) := by
  cases hd : SQLExec.del_each c hs w with
  | mk r w1 =>
    cases r with
    | ok u => rfl
    | error e =>
      obtain ⟨m, rfl⟩ := del_each_error _ _ _ _ _ hd
      rfl

theorem swallow_del (c : Catalog) (h : Handle) (w : World) :
    SQLExec.swallow (DbRelation.del c h w) = (none, (DbRelation.del c h w).2) := by
  cases hd : DbRelation.del c h w with
  | mk r w1 =>
    cases r with
    | ok u => rfl
    | error e =>
      obtain ⟨⟨m, rfl⟩, -⟩ := del_error _ _ _ _ _ hd
      rfl

theorem drop_ok (name : Identifier) (w w1 : World) (u : Unit)
    (hd : DbRelation.drop name w = (Except.ok u, w1)) :
    w1.physical = w.physical.filter (fun x => decide (x ≠ name)) := by
  unfold DbRelation.drop at hd
  cases hf : w.fault with
  | some m => simp [hf] at hd
  | none =>
    simp only [hf] at hd
    split at hd
    · simp only [Prod.mk.injEq] at hd
      rw [← hd.2]; rfl
    · simp at hd

/-- A successful `drop` has gone through all four steps: the statement targets a
table that is not guarded, every selected columns row was deleted, the physical
relation was dropped, and the first selected tables row was deleted. -/
theorem drop_success_steps (statement : DropStatement) (w w' : World) (r : QueryResult)
    (hdrop : SQLExec.drop statement w = (Except.ok r, w')) :
    statement.type = DropStatement.EntityType.kTable ∧
    ¬ (statement.name = Tables.TABLE_NAME ∨ statement.name = Columns.TABLE_NAME) ∧
    ∃ (w1 w2 : World) (h : Handle) (rest : Handles),
      SQLExec.del_each Catalog.columns
        (Relation.select w.columns (some [("table_name", Value.text statement.name)])) w
          = (Except.ok (), w1) ∧
      DbRelation.drop statement.name w1 = (Except.ok (), w2) ∧
      Relation.select w2.tables (some [("table_name", Value.text statement.name)]) = h :: rest ∧
      DbRelation.del Catalog.tables h w2 = (Except.ok (), w') ∧
      r = { column_names := none, column_attributes := none, rows := none,
            message := "Dropped table " ++ statement.name } := by
  unfold SQLExec.drop at hdrop
  by_cases htype : statement.type = DropStatement.EntityType.kTable
  swap
  · simp [htype] at hdrop
  by_cases hguard : statement.name = Tables.TABLE_NAME ∨ statement.name = Columns.TABLE_NAME
  · simp [htype, hguard] at hdrop
  refine ⟨htype, hguard, ?_⟩
  simp only [htype, ne_eq, not_true_eq_false, if_false, hguard] at hdrop
  cases h1 : SQLExec.del_each Catalog.columns
      (Relation.select w.columns (some [("table_name", Value.text statement.name)])) w with
  | mk r1 w1 =>
    rw [h1] at hdrop
    cases r1 with
    | error e => simp at hdrop
    | ok u1 =>
      simp only [] at hdrop
      cases h2 : DbRelation.drop statement.name w1 with
      | mk r2 w2 =>
        rw [h2] at hdrop
        cases r2 with
        | error e => simp at hdrop
        | ok u2 =>
          simp only [] at hdrop
          cases h3 : Relation.select w2.tables (some [("table_name", Value.text statement.name)]) with
          | nil => simp [h3] at hdrop
          | cons h rest =>
            rw [h3] at hdrop
            simp only [] at hdrop
            cases h4 : DbRelation.del Catalog.tables h w2 with
            | mk r4 w4 =>
              rw [h4] at hdrop
              cases r4 with
              | error e => simp at hdrop
              | ok u4 =>
                simp only [Prod.mk.injEq, Except.ok.injEq] at hdrop
                obtain ⟨hr, rfl⟩ := hdrop
                exact ⟨w1, w2, h, rest, rfl, h2, h3, h4, hr.symm⟩

/-! ## Claims C1 to C10 -/

/-- C1 (rollback on failed create).  When `create` has inserted the tables row
(`hins`), a relation error `m` is then raised by the inner block, that is by a
columns insert at any position or by the physical create / create_if_not_exists
(`htry`), and the deletions by handle succeed (`hundo`, `hdel`), then `create`
fails with that error and the rows of the tables relation and of the columns
relation are exactly what they were before the call; in particular the number of
rows referencing any table name is unchanged. -/
theorem create_rollback (statement : CreateStatement) (w w1 w2 w3 w4 : World)
    (tableHandler : Handle) (columnHandler : Handles) (m : String)
    (hins : DbRelation.insert Catalog.tables [("table_name", Value.text statement.tableName)] w
      = (Except.ok tableHandler, w1))
    (htry : SQLExec.create_try statement [("table_name", Value.text statement.tableName)] w1
      = (Except.error (Exn.DbRelationError m), columnHandler, w2))
    (hundo : SQLExec.del_each Catalog.columns columnHandler w2 = (Except.ok (), w3))
    (hdel : DbRelation.del Catalog.tables tableHandler w3 = (Except.ok (), w4)) :
    SQLExec.create statement w = (Except.error (Exn.DbRelationError m), w4) ∧
      Relation.rows w4.tables = Relation.rows w.tables ∧
      Relation.rows w4.columns = Relation.rows w.columns ∧
      ∀ T, (Relation.referencing w4.tables T).length = (Relation.referencing w.tables T).length ∧
        (Relation.referencing w4.columns T).length = (Relation.referencing w.columns T).length := by
  have hrun : SQLExec.create statement w = (Except.error (Exn.DbRelationError m), w4) := by
    unfold SQLExec.create
    simp only [hins, htry, swallow_del_each, swallow_del]
    simp only [hundo, hdel]
  obtain ⟨rfl, hw1⟩ := insert_ok _ _ _ _ _ hins
  obtain ⟨added, a1, a2, a3, -⟩ := create_try_effect _ _ _ _ _ _ htry
  obtain ⟨u1, u2, -, -⟩ := del_each_ok _ _ _ _ _ hundo
  have hw4 := del_ok _ _ _ _ _ hdel
  have hw1t : w1.tables = w.tables ++ [some [("table_name", Value.text statement.tableName)]] := by
    rw [hw1]; rfl
  have hw1c : w1.columns = w.columns := by rw [hw1]; rfl
  have htab : Relation.rows w4.tables = Relation.rows w.tables := by
    have e4 : w4.tables = w3.tables.set (w.tables.length) none := by rw [hw4]; rfl
    have e3 : w3.tables = w2.tables := u2 Catalog.tables (by decide)
    rw [e4, e3, a3, hw1t]
    unfold Relation.rows
    rw [rowsFrom_set_none, rowsFrom_append]
    simp only [Nat.zero_add, Relation.rowsFrom, List.filter_append]
    have keep : (Relation.rowsFrom 0 w.tables).filter
        (fun p => !decide (p.1 = List.length w.tables)) = Relation.rowsFrom 0 w.tables := by
      apply List.filter_eq_self.mpr
      rintro ⟨k, x⟩ hp
      have := rowsFrom_bounds _ _ k x hp
      simp only [Bool.not_eq_true', decide_eq_false_iff_not]
      omega
    rw [keep]; simp
  have hcol : Relation.rows w4.columns = Relation.rows w.columns := by
    have e4 : w4.columns = w3.columns := by rw [hw4]; rfl
    have e3 : w3.columns = columnHandler.foldl (fun r h => r.set h none) w2.columns := u1
    rw [e4, e3, rows_del_all, a1, hw1c]
    unfold Relation.rows
    rw [rowsFrom_append, List.filter_append]
    have keep : (Relation.rowsFrom 0 w.columns).filter
        (fun p => !decide (p.1 ∈ columnHandler)) = Relation.rowsFrom 0 w.columns := by
      apply List.filter_eq_self.mpr
      rintro ⟨k, x⟩ hp
      have := rowsFrom_bounds _ _ k x hp
      simp only [Bool.not_eq_true', decide_eq_false_iff_not, a2, hw1c, List.mem_range'_1]
      omega
    have gone : (Relation.rowsFrom (0 + List.length w.columns) (added.map some)).filter
        (fun p => !decide (p.1 ∈ columnHandler)) = [] := by
      apply List.filter_eq_nil_iff.mpr
      rintro ⟨k, x⟩ hp
      have := rowsFrom_bounds _ _ k x hp
      simp only [Bool.not_eq_true', decide_eq_false_iff_not, a2, hw1c, List.mem_range'_1,
        not_not]
      simp only [List.length_map] at this
      omega
    rw [keep, gone, List.append_nil]
  refine ⟨hrun, htab, hcol, ?_⟩
  intro T
  unfold Relation.referencing
  rw [htab, hcol]
  exact ⟨rfl, rfl⟩

/-- Instance of C1: `CREATE TABLE T (a INT, b TEXT)` whose physical creation fails
with "disk full"; both columns rows and the tables row are deleted again. -/
theorem create_rollback_witness :
    SQLExec.create Sample.createT Sample.createFails =
        (Except.error (Exn.DbRelationError "disk full"),
          { World.empty with
            tables := [none], columns := [none, none],
            calls := [Call.insert Catalog.tables [("table_name", Value.text "T")],
              Call.insert Catalog.columns [("table_name", Value.text "T"),
                ("data_type", Value.text "INT"), ("column_name", Value.text "a")],
              Call.insert Catalog.columns [("table_name", Value.text "T"),
                ("data_type", Value.text "TEXT"), ("column_name", Value.text "b")],
              Call.create "T", Call.del Catalog.columns 0, Call.del Catalog.columns 1,
              Call.del Catalog.tables 0] }) ∧
      Relation.rows ([none] : Relation) = Relation.rows Sample.createFails.tables ∧
      Relation.rows ([none, none] : Relation) = Relation.rows Sample.createFails.columns :=
  have h := create_rollback Sample.createT Sample.createFails _ _ _ _ 0 [0, 1] "disk full"
    rfl rfl rfl rfl
  ⟨h.1, h.2.1, h.2.2.1⟩

/-- C2 (definition errors should write nothing), evaluated on the code:
`CREATE TABLE T (a INT, b DOUBLE)` on an empty catalog fails with the definition
error "Not supported", but only after the tables row of `T` and the columns row
of `a` have been inserted, and neither is deleted: the `SQLExecError` of
`column_definition` is not a `DbRelationError`, so it passes both compensating
handlers. -/
theorem create_unsupported_type_leaves_rows :
    SQLExec.create Sample.createUnsupported World.empty =
      (Except.error (Exn.SQLExecError "Not supported"),
        { World.empty with
          tables := [some [("table_name", Value.text "T")]],
          columns := [some [("table_name", Value.text "T"), ("data_type", Value.text "INT"),
                            ("column_name", Value.text "a")]],
          calls := [Call.insert Catalog.tables [("table_name", Value.text "T")],
            Call.insert Catalog.columns [("table_name", Value.text "T"),
              ("data_type", Value.text "INT"), ("column_name", Value.text "a")]] }) := rfl

/-- C3 (the original failure is what propagates).  Whenever the tables row has been
inserted (`hins`) and the inner block raises a relation error `m` (`htry`), the
error that leaves `create` is that same error, whatever the compensating
deletions of the columns rows and of the tables row do (succeed or raise). -/
theorem create_propagates_original (statement : CreateStatement) (w w1 w2 : World)
    (tableHandler : Handle) (columnHandler : Handles) (m : String)
    (hins : DbRelation.insert Catalog.tables [("table_name", Value.text statement.tableName)] w
      = (Except.ok tableHandler, w1))
    (htry : SQLExec.create_try statement [("table_name", Value.text statement.tableName)] w1
      = (Except.error (Exn.DbRelationError m), columnHandler, w2)) :
    (SQLExec.create statement w).1 = Except.error (Exn.DbRelationError m) := by
  unfold SQLExec.create
  simp only [hins, htry, swallow_del_each, swallow_del]

/-- Instance of C3: the second columns insert fails with "no space", then the
deletion of the first columns row fails with "busy" and the deletion of the
tables row fails with "locked"; "no space" is what leaves `create`. -/
theorem create_propagates_original_witness :
    (SQLExec.create Sample.createT Sample.undoFails).1 =
        Except.error (Exn.DbRelationError "no space") ∧
      (SQLExec.create Sample.createT Sample.undoFails).2.calls =
        [Call.insert Catalog.tables [("table_name", Value.text "T")],
         Call.insert Catalog.columns [("table_name", Value.text "T"),
           ("data_type", Value.text "INT"), ("column_name", Value.text "a")],
         Call.insert Catalog.columns [("table_name", Value.text "T"),
           ("data_type", Value.text "TEXT"), ("column_name", Value.text "b")],
         Call.del Catalog.columns 0, Call.del Catalog.tables 0] :=
  ⟨create_propagates_original Sample.createT Sample.undoFails _ _ 0 [0] "no space" rfl rfl,
    by decide⟩

/-- C4 (effect of a successful create).  For a table name `T` and `n` column
types all INT or TEXT, when no storage call fails (no fault is scheduled for the
`n + 2` calls, and `T` is not physically present when the plain create is used),
`create` returns the result without columns whose message is
"Created new table: T", and the world it leaves is the old one with exactly one
row `table_name: T` appended to tables, one row per definition appended to
columns in declaration order (`table_name: T`, `data_type` "TEXT" or "INT",
`column_name`), every other row unchanged, `T` physically present, and the
storage calls logged: the tables insert, the columns inserts, then
create_if_not_exists when the flag is set and plain create otherwise. -/
theorem create_success_effect (statement : CreateStatement) (w : World)
    (htypes : ∀ c ∈ statement.columns, c.type = ColumnDefinition.DataType.INT ∨
      c.type = ColumnDefinition.DataType.TEXT)
    (hq : w.quiet (statement.columns.length + 2))
    (hnew : statement.ifNotExists = false → statement.tableName ∉ w.physical) :
    SQLExec.create statement w =
      (Except.ok { column_names := none, column_attributes := none, rows := none,
                   message := "Created new table: " ++ statement.tableName },
        { tables := w.tables ++ [some [("table_name", Value.text statement.tableName)]],
          columns := w.columns ++ statement.columns.map (fun c => some
            [("table_name", Value.text statement.tableName),
             ("data_type", Value.text
               (if c.type = ColumnDefinition.DataType.TEXT then "TEXT" else "INT")),
             ("column_name", Value.text c.name)]),
          indices := w.indices,
          physical := if statement.tableName ∈ w.physical then w.physical
            else w.physical ++ [statement.tableName],
          physical_indices := w.physical_indices,
          faults := w.faults.drop (statement.columns.length + 2),
          calls := w.calls ++
            [Call.insert Catalog.tables [("table_name", Value.text statement.tableName)]] ++
            statement.columns.map (fun c => Call.insert Catalog.columns
              [("table_name", Value.text statement.tableName),
               ("data_type", Value.text
                 (if c.type = ColumnDefinition.DataType.TEXT then "TEXT" else "INT")),
               ("column_name", Value.text c.name)]) ++
            [if statement.ifNotExists then Call.create_if_not_exists statement.tableName
             else Call.create statement.tableName] }) :=
  create_run statement w htypes hq hnew

/-- Instance of C4: `CREATE TABLE IF NOT EXISTS T (a INT, b TEXT)` on an empty catalog. -/
theorem create_success_effect_witness :
    SQLExec.create Sample.createTIfNotExists World.empty =
      (Except.ok { column_names := none, column_attributes := none, rows := none,
                   message := "Created new table: T" },
        { World.empty with
          tables := [some [("table_name", Value.text "T")]],
          columns :=
            [some [("table_name", Value.text "T"), ("data_type", Value.text "INT"),
                   ("column_name", Value.text "a")],
             some [("table_name", Value.text "T"), ("data_type", Value.text "TEXT"),
                   ("column_name", Value.text "b")]],
          physical := ["T"],
          calls := [Call.insert Catalog.tables [("table_name", Value.text "T")],
            Call.insert Catalog.columns [("table_name", Value.text "T"),
              ("data_type", Value.text "INT"), ("column_name", Value.text "a")],
            Call.insert Catalog.columns [("table_name", Value.text "T"),
              ("data_type", Value.text "TEXT"), ("column_name", Value.text "b")],
            Call.create_if_not_exists "T"] }) :=
  create_success_effect Sample.createTIfNotExists World.empty (by decide) (by decide)
    (by decide)

/-- C5 (create / show-columns round trip).  Starting from a columns relation with
no row referencing `T`, after a successful `CREATE TABLE T (c1, .., cn)` with INT
or TEXT columns, `SHOW COLUMNS T` returns exactly the rows
(`table_name: T`, `column_name: name ci`, `data_type`: type string of `ci`), one
per definition, in declaration order, with the count message. -/
theorem create_show_columns_round_trip (statement : CreateStatement) (w : World)
    (htypes : ∀ c ∈ statement.columns, c.type = ColumnDefinition.DataType.INT ∨
      c.type = ColumnDefinition.DataType.TEXT)
    (hq : w.quiet (statement.columns.length + 2))
    (hnew : statement.ifNotExists = false → statement.tableName ∉ w.physical)
    (hfresh : Relation.referencing w.columns statement.tableName = []) :
    (SQLExec.create statement w).1 =
      Except.ok { column_names := none, column_attributes := none, rows := none,
                  message := "Created new table: " ++ statement.tableName } ∧
    (SQLExec.show { type := ShowStatement.EntityType.kColumns, tableName := statement.tableName }
        (SQLExec.create statement w).2).1 =
      Except.ok
        { column_names := some ["table_name", "column_name", "data_type"],
          column_attributes := some [{ data_type := DataType.TEXT }],
          rows := some (statement.columns.map (fun c =>
            [("table_name", Value.text statement.tableName),
             ("column_name", Value.text c.name),
             ("data_type", Value.text
               (if c.type = ColumnDefinition.DataType.TEXT then "TEXT" else "INT"))])),
          message := "successfully returned " ++ toString statement.columns.length ++ " rows" } := by
  rw [create_run statement w htypes hq hnew]
  refine ⟨rfl, ?_⟩
  have hrows := referencing_append_column_rows w.columns statement.tableName statement.columns hfresh
  have hsel := select_project
    (w.columns ++ statement.columns.map (fun c => some (SQLExec.column_row statement.tableName c)))
    (some [("table_name", Value.text statement.tableName)])
    ["table_name", "column_name", "data_type"]
  simp only [] at hsel
  have hproj : ((Relation.rows (w.columns ++ statement.columns.map
        (fun c => some (SQLExec.column_row statement.tableName c)))).filter
        (fun p => ValueDict.satisfies p.2 [("table_name", Value.text statement.tableName)])).map
        (fun p => ValueDict.project p.2 ["table_name", "column_name", "data_type"]) =
      statement.columns.map (fun c =>
            [("table_name", Value.text statement.tableName),
             ("column_name", Value.text c.name),
             ("data_type", Value.text
               (if c.type = ColumnDefinition.DataType.TEXT then "TEXT" else "INT"))]) := by
    have : (fun p : Handle × ValueDict => ValueDict.project p.2 ["table_name", "column_name", "data_type"])
        = (fun row => ValueDict.project row ["table_name", "column_name", "data_type"]) ∘ Prod.snd := rfl
    rw [this, ← List.map_map]
    unfold Relation.referencing at hrows
    rw [hrows, List.map_map]
    apply List.map_congr_left
    intro c _
    exact project_column_row statement.tableName c
  rw [hproj] at hsel
  simp only [SQLExec.show, SQLExec.show_columns, hsel, List.length_map]

/-- Instance of C5: after `CREATE TABLE T (a INT, b TEXT)` on an empty catalog,
`SHOW COLUMNS T` returns the two rows (T, a, INT) and (T, b, TEXT), in that order. -/
theorem create_show_columns_round_trip_witness :
    (SQLExec.create Sample.createT World.empty).1 =
      Except.ok { column_names := none, column_attributes := none, rows := none,
                  message := "Created new table: T" } ∧
    (SQLExec.show Sample.showColumnsT (SQLExec.create Sample.createT World.empty).2).1 =
      Except.ok
        { column_names := some ["table_name", "column_name", "data_type"],
          column_attributes := some [{ data_type := DataType.TEXT }],
          rows := some
            [[("table_name", Value.text "T"), ("column_name", Value.text "a"),
              ("data_type", Value.text "INT")],
             [("table_name", Value.text "T"), ("column_name", Value.text "b"),
              ("data_type", Value.text "TEXT")]],
          message := "successfully returned 2 rows" } :=
  create_show_columns_round_trip Sample.createT World.empty (by decide) (by decide) (by decide)
    (by decide)

/-- C6 (idempotent create-if-not-exists), evaluated on the code:
`CREATE TABLE IF NOT EXISTS T (a INT, b TEXT)` executed twice on an empty catalog
succeeds both times, but the second execution inserts the catalog rows again:
tables then holds two rows for `T` and columns four, against one and two after
the first execution.  The flag is consulted for the physical creation only. -/
theorem create_if_not_exists_twice_duplicates :
    (SQLExec.create Sample.createTIfNotExists World.empty).1 =
        Except.ok (QueryResult.ofMessage "Created new table: T") ∧
      (SQLExec.create Sample.createTIfNotExists
        (SQLExec.create Sample.createTIfNotExists World.empty).2).1 =
        Except.ok (QueryResult.ofMessage "Created new table: T") ∧
      (Relation.referencing (SQLExec.create Sample.createTIfNotExists
        (SQLExec.create Sample.createTIfNotExists World.empty).2).2.tables "T").length = 2 ∧
      (Relation.referencing (SQLExec.create Sample.createTIfNotExists
        (SQLExec.create Sample.createTIfNotExists World.empty).2).2.columns "T").length = 4 ∧
      (Relation.referencing
        (SQLExec.create Sample.createTIfNotExists World.empty).2.tables "T").length = 1 ∧
      (Relation.referencing
        (SQLExec.create Sample.createTIfNotExists World.empty).2.columns "T").length = 2 :=
  ⟨rfl, rfl, by decide, by decide, by decide, by decide⟩

/-- Counterexample to C7 as stated: in the state reached by executing
`CREATE TABLE IF NOT EXISTS T (a INT, b TEXT)` twice, `DROP TABLE T` returns
successfully and the tables relation still holds a row with `table_name` T
(only the first selected row is deleted). -/
theorem drop_leaves_duplicate_tables_row :
    (SQLExec.drop Sample.dropT
        (SQLExec.create Sample.createTIfNotExists
          (SQLExec.create Sample.createTIfNotExists World.empty).2).2).1 =
      Except.ok { column_names := none, column_attributes := none, rows := none,
                  message := "Dropped table T" } ∧
    Relation.referencing (SQLExec.drop Sample.dropT
        (SQLExec.create Sample.createTIfNotExists
          (SQLExec.create Sample.createTIfNotExists World.empty).2).2).2.tables "T" =
      [(1, [("table_name", Value.text "T")])] :=
  ⟨rfl, by decide⟩

/-- C7, amended (drop completeness).  Whenever `drop` on `DROP TABLE T` returns
successfully from a state whose tables relation holds at most one row with
`table_name` T, the tables relation and the columns relation hold no row with
`table_name` T afterwards, the physical relation `T` is gone, and the result
message is "Dropped table T". -/
theorem drop_completeness (statement : DropStatement) (w w' : World) (r : QueryResult)
    (hdrop : SQLExec.drop statement w = (Except.ok r, w'))
    (hone : (Relation.referencing w.tables statement.name).length ≤ 1) :
    Relation.referencing w'.tables statement.name = [] ∧
      Relation.referencing w'.columns statement.name = [] ∧
      statement.name ∉ w'.physical ∧
      r = { column_names := none, column_attributes := none, rows := none,
            message := "Dropped table " ++ statement.name } := by
  obtain ⟨-, -, w1, w2, h, rest, h1, h2, h3, h4, hr⟩ := drop_success_steps _ _ _ _ hdrop
  have hcat := drop_catalog statement.name w1
  rw [h2] at hcat
  obtain ⟨c1, c2, -⟩ := hcat
  obtain ⟨d1, d2, -, -⟩ := del_each_ok _ _ _ _ _ h1
  have hw1t : w1.tables = w.tables := d2 Catalog.tables (by decide)
  have hw1c : w1.columns = (Relation.select w.columns
      (some [("table_name", Value.text statement.name)])).foldl
        (fun r h => r.set h none) w.columns := d1
  have hw4 := del_ok _ _ _ _ _ h4
  have e4t : w'.tables = w.tables.set h none := by
    rw [hw4]
    show (w2.tables).set h none = _
    rw [c1, hw1t]
  have e4c : w'.columns = w1.columns := by
    rw [hw4]
    show w2.columns = _
    rw [c2]
  have e4p : w'.physical = w1.physical.filter (fun x => decide (x ≠ statement.name)) := by
    rw [hw4]
    show w2.physical = _
    exact drop_ok _ _ _ _ h2
  refine ⟨?_, ?_, ?_, hr⟩
  · rw [c1, hw1t] at h3
    unfold Relation.referencing at hone ⊢
    unfold Relation.select at h3
    simp only [] at h3
    rw [e4t]
    unfold Relation.rows at h3 hone ⊢
    rw [rowsFrom_set_none, List.filter_filter]
    generalize hL : (Relation.rowsFrom 0 w.tables).filter
      (fun p => ValueDict.satisfies p.2 [("table_name", Value.text statement.name)]) = L
      at h3 hone
    have hcomm : (Relation.rowsFrom 0 w.tables).filter
        (fun a => (ValueDict.satisfies a.2 [("table_name", Value.text statement.name)]
          && !decide (a.1 = 0 + h))) = L.filter (fun a => !decide (a.1 = h)) := by
      rw [← hL, List.filter_filter]
      congr 1
      funext a
      simp [Bool.and_comm]
    rw [hcomm]
    match L, h3, hone with
    | [p], h3, _ =>
      simp only [List.map_cons, List.map_nil, List.cons.injEq] at h3
      simp [h3.1]
    | _ :: _ :: _, _, hone => simp at hone
  · rw [e4c, hw1c]
    unfold Relation.referencing
    rw [rows_del_all, List.filter_filter]
    apply List.filter_eq_nil_iff.mpr
    rintro ⟨k, x⟩ hp
    simp only [Bool.and_eq_true, Bool.not_eq_true', decide_eq_false_iff_not, not_and,
      not_not]
    intro hsat
    unfold Relation.select
    exact List.mem_map.mpr ⟨(k, x), List.mem_filter.mpr ⟨hp, hsat⟩, rfl⟩
  · rw [e4p]
    simp

/-- Instance of C7 amended: `DROP TABLE T` on the bootstrapped catalog. -/
theorem drop_completeness_witness :
    Relation.referencing (SQLExec.drop Sample.dropT Sample.catalog).2.tables "T" = [] ∧
      Relation.referencing (SQLExec.drop Sample.dropT Sample.catalog).2.columns "T" = [] ∧
      "T" ∉ (SQLExec.drop Sample.dropT Sample.catalog).2.physical ∧
      ({ column_names := none, column_attributes := none, rows := none,
         message := "Dropped table T" } : QueryResult) =
        { column_names := none, column_attributes := none, rows := none,
          message := "Dropped table " ++ Sample.dropT.name } :=
  drop_completeness Sample.dropT Sample.catalog (SQLExec.drop Sample.dropT Sample.catalog).2
    { column_names := none, column_attributes := none, rows := none,
      message := "Dropped table T" } rfl (by decide)

/-- Counterexample to C8 as stated: `DROP TABLE _indices`, whose target is one of
the catalog relations, is not refused; it deletes the columns rows of the indices
relation, drops the physical relation and deletes its tables row. -/
theorem drop_indices_catalog_not_guarded :
    SQLExec.drop Sample.dropIndices Sample.catalog =
      (Except.ok { column_names := none, column_attributes := none, rows := none,
                   message := "Dropped table _indices" },
        { Sample.catalog with
          tables := [some [("table_name", Value.text "_tables")],
                     some [("table_name", Value.text "_columns")],
                     none,
                     some [("table_name", Value.text "T")]],
          columns := [none, none,
                      some [("table_name", Value.text "T"), ("data_type", Value.text "INT"),
                            ("column_name", Value.text "a")]],
          physical := ["_tables", "_columns", "T"],
          calls := [Call.del Catalog.columns 0, Call.del Catalog.columns 1,
                    Call.drop "_indices", Call.del Catalog.tables 2] }) := rfl

/-- C8, amended (guarded drop).  For every DROP TABLE statement whose target name
is the name of the tables or of the columns catalog relation, `drop` fails with
the guard error "Cannot drop a schema table." and leaves the whole world (tables,
columns, indices, physical relations, and the log of storage calls) unchanged. -/
theorem drop_guard_schema_tables (statement : DropStatement) (w : World)
    (htable : statement.type = DropStatement.EntityType.kTable)
    (hname : statement.name = Tables.TABLE_NAME ∨ statement.name = Columns.TABLE_NAME) :
    SQLExec.drop statement w = (Except.error (Exn.SQLExecError "Cannot drop a schema table."), w) := by
  unfold SQLExec.drop
  simp [htable, hname]

/-- Instance of C8 amended: `DROP TABLE _tables` on the bootstrapped catalog. -/
theorem drop_guard_schema_tables_witness :
    SQLExec.drop Sample.dropTables Sample.catalog =
      (Except.error (Exn.SQLExecError "Cannot drop a schema table."), Sample.catalog) :=
  drop_guard_schema_tables Sample.dropTables Sample.catalog rfl (Or.inl rfl)

/-- C9 (show exclusion).  For every content of the tables relation (each stored
row carrying the `table_name` column of the relation's schema, which `at` reads),
`show_tables` returns, in selection order, exactly the projections of the rows
whose `table_name` is neither the tables nor the columns catalog name, with the
message "successfully returned N rows", N being the number of returned rows, and
leaves the world unchanged; no returned row is named after either catalog
relation. -/
theorem show_tables_user_rows (w : World)
    (hwf : ∀ p ∈ Relation.rows w.tables, (ValueDict.get p.2 "table_name").isSome) :
    SQLExec.show_tables w =
      (Except.ok
        { column_names := some ["table_name"],
          column_attributes := some [{ data_type := DataType.TEXT }],
          rows := some (((Relation.rows w.tables).filter (fun p =>
            decide (ValueDict.table_name p.2 ≠ some Tables.TABLE_NAME ∧
              ValueDict.table_name p.2 ≠ some Columns.TABLE_NAME))).map
            (fun p => ValueDict.project p.2 ["table_name"])),
          message := "successfully returned " ++
            toString (((Relation.rows w.tables).filter (fun p =>
              decide (ValueDict.table_name p.2 ≠ some Tables.TABLE_NAME ∧
                ValueDict.table_name p.2 ≠ some Columns.TABLE_NAME))).length) ++ " rows" }, w) ∧
      ∀ row ∈ ((Relation.rows w.tables).filter (fun p =>
            decide (ValueDict.table_name p.2 ≠ some Tables.TABLE_NAME ∧
              ValueDict.table_name p.2 ≠ some Columns.TABLE_NAME))).map
            (fun p => ValueDict.project p.2 ["table_name"]),
        ValueDict.table_name row ≠ some Tables.TABLE_NAME ∧
          ValueDict.table_name row ≠ some Columns.TABLE_NAME := by
  constructor
  · have hsel : ∀ h ∈ Relation.select w.tables none,
        (ValueDict.get (Relation.project w.tables h ["table_name"]) "table_name").isSome := by
      intro h hh
      unfold Relation.select at hh
      obtain ⟨⟨k, x⟩, hp, rfl⟩ := List.mem_map.mp hh
      have hmem : (k, x) ∈ Relation.rows w.tables := (List.mem_filter.mp hp).1
      have hget := rowsFrom_get w.tables 0 k x hmem
      have hx := hwf (k, x) hmem
      simp only [Nat.sub_zero] at hget
      cases hg : ValueDict.get x "table_name" with
      | none => simp [hg] at hx
      | some v => simp [Relation.project, hget, ValueDict.project, hg, ValueDict.get]
    have hloop := show_tables_rows_ok w (Relation.select w.tables none) [] hsel
    rw [select_project w.tables none ["table_name"]] at hloop
    simp only [List.filter_true, List.nil_append, List.filter_map] at hloop
    have hpred : ((fun row : ValueDict => decide (ValueDict.table_name row ≠ some Tables.TABLE_NAME ∧
          ValueDict.table_name row ≠ some Columns.TABLE_NAME)) ∘
        fun p : Handle × ValueDict => ValueDict.project p.2 ["table_name"]) =
        fun p => decide (ValueDict.table_name p.2 ≠ some Tables.TABLE_NAME ∧
          ValueDict.table_name p.2 ≠ some Columns.TABLE_NAME) := by
      funext p
      simp only [Function.comp, table_name_project]
    rw [hpred] at hloop
    unfold SQLExec.show_tables
    simp only [Tables.get_columns, if_true, hloop, List.length_map]
  · intro row hrow
    obtain ⟨p, hp, rfl⟩ := List.mem_map.mp hrow
    rw [table_name_project]
    simpa using (List.mem_filter.mp hp).2

/-- Instance of C9: on the bootstrapped catalog the rows of `_tables` and
`_columns` are left out. -/
theorem show_tables_user_rows_witness :
    SQLExec.show_tables Sample.catalog =
      (Except.ok
        { column_names := some ["table_name"],
          column_attributes := some [{ data_type := DataType.TEXT }],
          rows := some [[("table_name", Value.text "_indices")], [("table_name", Value.text "T")]],
          message := "successfully returned 2 rows" }, Sample.catalog) :=
  (show_tables_user_rows Sample.catalog (by decide)).1

/-- C10 (dispatch of other kinds).  For every statement whose kind is not CREATE,
DROP or SHOW, `execute` does not fail: it returns the result with no column
names, attributes or rows whose message is "not implemented", and leaves the
world (every catalog relation included) unchanged. -/
theorem execute_other_not_implemented (kind : OtherKind) (w : World) :
    SQLExec.execute (SQLStatement.other kind) w =
      (Except.ok { column_names := none, column_attributes := none, rows := none,
                   message := "not implemented" }, w) := rfl

/-! ## Lemmas for claims C11 to C20 -/

theorem execute_of_handler (statement : SQLStatement) (w : World) :
    SQLExec.execute statement w =
      match (match statement with
        | SQLStatement.kStmtCreate s => SQLExec.create s w
        | SQLStatement.kStmtDrop s => SQLExec.drop s w
        | SQLStatement.kStmtShow s => SQLExec.show s w
        | SQLStatement.other _ => (Except.ok (QueryResult.ofMessage "not implemented"), w)) with
      | (Except.error (Exn.DbRelationError m), w1) =>
        (Except.error (Exn.SQLExecError ("DbRelationError: " ++ m)), w1)
      | other => other := rfl

theorem normalise_ne_relation (r : Except Exn QueryResult × World) (m : String) :
    (match r with
      | (Except.error (Exn.DbRelationError m), w1) =>
        (Except.error (Exn.SQLExecError ("DbRelationError: " ++ m)), w1)
      | other => other).1 ≠ Except.error (Exn.DbRelationError m) := by
  obtain ⟨res, w1⟩ := r
  cases res with
  | ok q => simp
  | error e => cases e <;> simp

theorem show_tables_rows_error (w : World) (names : List Identifier) (hs : Handles)
    (acc : List ValueDict) (e : Exn)
    (h : SQLExec.show_tables_rows w names hs acc = Except.error e) : e = Exn.out_of_range := by
  induction hs generalizing acc with
  | nil => simp [SQLExec.show_tables_rows] at h
  | cons t rest ih =>
    unfold SQLExec.show_tables_rows at h
    simp only [] at h
    split at h
    · simp only [Except.error.injEq] at h
      exact h.symm
    · split at h
      · exact ih _ h
      · exact ih _ h

theorem variant_column_definition (col : ColumnDefinition) :
    Variant.SQLExec.column_definition col = SQLExec.column_definition col := rfl

theorem variant_create_columns (cols : List ColumnDefinition) (row : ValueDict) (hs : Handles)
    (w : World) :
    Variant.SQLExec.create_columns cols row hs w = SQLExec.create_columns cols row hs w := by
  induction cols generalizing row hs w with
  | nil => rfl
  | cons column rest ih =>
    unfold Variant.SQLExec.create_columns SQLExec.create_columns
    rw [variant_column_definition]
    cases SQLExec.column_definition column with
    | error e => rfl
    | ok na =>
      simp only []
      split
      · rfl
      · exact ih _ _ _

theorem variant_create_try (statement : CreateStatement) (row : ValueDict) (w : World) :
    Variant.SQLExec.create_try statement row w = SQLExec.create_try statement row w := by
  unfold Variant.SQLExec.create_try SQLExec.create_try
  rw [variant_create_columns]

theorem variant_del_each (c : Catalog) (hs : Handles) (w : World) :
    Variant.SQLExec.del_each c hs w = SQLExec.del_each c hs w := by
  induction hs generalizing w with
  | nil => rfl
  | cons h rest ih =>
    unfold Variant.SQLExec.del_each SQLExec.del_each
    split
    · rfl
    · exact ih _

theorem variant_swallow (r : Except Exn Unit × World) :
    Variant.SQLExec.swallow r = SQLExec.swallow r := rfl

theorem variant_create (statement : CreateStatement) (w : World) :
    Variant.SQLExec.create statement w = SQLExec.create statement w := by
  unfold Variant.SQLExec.create SQLExec.create
  simp only [variant_create_try, variant_del_each, variant_swallow]

theorem variant_drop (statement : DropStatement) (w : World) :
    Variant.SQLExec.drop statement w = SQLExec.drop statement w := by
  unfold Variant.SQLExec.drop SQLExec.drop
  simp only [variant_del_each]

theorem variant_show_tables_rows (w : World) (names : List Identifier) (hs : Handles)
    (acc : List ValueDict) :
    Variant.SQLExec.show_tables_rows w names hs acc = SQLExec.show_tables_rows w names hs acc := by
  induction hs generalizing acc with
  | nil => rfl
  | cons t rest ih =>
    unfold Variant.SQLExec.show_tables_rows SQLExec.show_tables_rows
    simp only [ih]

theorem variant_show (statement : ShowStatement) (w : World) :
    Variant.SQLExec.show statement w = SQLExec.show statement w := by
  unfold Variant.SQLExec.show SQLExec.show Variant.SQLExec.show_tables SQLExec.show_tables
  simp only [variant_show_tables_rows]
  rfl

theorem dropped_index_ne (s : String) :
    "dropped index " ++ s ≠ "drop index not implemented" := by
  intro h
  have h2 := congrArg (fun t : String => t.data.take 5) h
  simp only [String.data_append] at h2
  have e1 : ("dropped index ".data ++ s.data).take 5 = ['d', 'r', 'o', 'p', 'p'] := rfl
  rw [e1] at h2
  exact absurd h2 (by decide)

theorem join_cons (a : String) (l : List String) : String.join (a :: l) = a ++ String.join l := by
  apply String.ext
  simp

theorem join_nil : String.join [] = "" := rfl

theorem print_header (names : List Identifier) (out : String) :
    names.foldl (fun o column_name => o ++ column_name ++ " ") out =
      out ++ String.join (names.map (fun column_name => column_name ++ " ")) := by
  induction names generalizing out with
  | nil => simp [join_nil]
  | cons n rest ih =>
    rw [List.foldl_cons, ih, List.map_cons, join_cons]
    simp only [String.append_assoc]

theorem print_rule (l : List Nat) (out : String) :
    l.foldl (fun o _ => o ++ "----------+") out =
      out ++ String.join (List.replicate l.length "----------+") := by
  induction l generalizing out with
  | nil => simp [join_nil]
  | cons n rest ih =>
    rw [List.foldl_cons, ih, List.length_cons, List.replicate_succ, join_cons]
    simp only [String.append_assoc]

theorem print_row_ok (row : ValueDict) (names : List Identifier) (out : String)
    (hrow : ∀ n ∈ names, (ValueDict.get row n).isSome) :
    QueryResult.print_row row names out =
      (Except.ok (), out ++ String.join (names.map (fun n =>
        match ValueDict.get row n with
        | some value => QueryResult.print_value value ++ " "
        | none => "")) ++ "\n") := by
  induction names generalizing out with
  | nil => simp [QueryResult.print_row, join_nil]
  | cons n rest ih =>
    have hn := hrow n (List.mem_cons_self _ _)
    have hrest := fun k hk => hrow k (List.mem_cons_of_mem _ hk)
    unfold QueryResult.print_row
    cases hg : ValueDict.get row n with
    | none => simp [hg] at hn
    | some v =>
      simp only []
      rw [ih _ hrest, List.map_cons, join_cons, hg]
      simp only [String.append_assoc]

theorem print_rows_ok (names : List Identifier) (rows : List ValueDict) (out : String)
    (hrows : ∀ row ∈ rows, ∀ n ∈ names, (ValueDict.get row n).isSome) :
    QueryResult.print_rows names rows out =
      (Except.ok (), out ++ String.join (rows.map (fun row =>
        String.join (names.map (fun n =>
          match ValueDict.get row n with
          | some value => QueryResult.print_value value ++ " "
          | none => "")) ++ "\n"))) := by
  induction rows generalizing out with
  | nil => simp [QueryResult.print_rows, join_nil]
  | cons row rest ih =>
    have hrow := hrows row (List.mem_cons_self _ _)
    have hrest := fun r hr => hrows r (List.mem_cons_of_mem _ hr)
    unfold QueryResult.print_rows
    rw [print_row_ok row names out hrow]
    simp only []
    rw [ih _ hrest, List.map_cons, join_cons]
    simp only [String.append_assoc]

theorem del_fields (c : Catalog) (h : Handle) (w : World) :
    (DbRelation.del c h w).2.calls = w.calls ++ [Call.del c h] ∧
      (DbRelation.del c h w).2.faults = w.faults.tail ∧
      (DbRelation.del c h w).2.physical = w.physical ∧
      (DbRelation.del c h w).2.physical_indices = w.physical_indices ∧
      ∀ c', c' ≠ c → (DbRelation.del c h w).2.rel c' = w.rel c' := by
  unfold DbRelation.del
  cases w.fault with
  | some m => exact ⟨rfl, rfl, rfl, rfl, fun _ _ => rfl⟩
  | none =>
    refine ⟨?_, ?_, ?_, ?_, ?_⟩
    · cases c <;> rfl
    · cases c <;> rfl
    · cases c <;> rfl
    · cases c <;> rfl
    · intro c' hne
      cases c <;> cases c' <;> first | rfl | exact absurd rfl hne

/-- A deletion loop touches neither the other relations nor the physical store,
however it ends. -/
theorem del_each_frame (c : Catalog) (hs : Handles) (w : World) :
    (SQLExec.del_each c hs w).2.physical = w.physical ∧
      (SQLExec.del_each c hs w).2.physical_indices = w.physical_indices ∧
      ∀ c', c' ≠ c → (SQLExec.del_each c hs w).2.rel c' = w.rel c' := by
  induction hs generalizing w with
  | nil => exact ⟨rfl, rfl, fun _ _ => rfl⟩
  | cons h rest ih =>
    obtain ⟨-, -, f3, f4, f5⟩ := del_fields c h w
    unfold SQLExec.del_each
    cases hd : DbRelation.del c h w with
    | mk r w1 =>
      rw [hd] at f3 f4 f5
      cases r with
      | error e => exact ⟨f3, f4, f5⟩
      | ok u =>
        obtain ⟨i1, i2, i3⟩ := ih w1
        exact ⟨i1.trans f3, i2.trans f4, fun c' hne => (i3 c' hne).trans (f5 c' hne)⟩

/-- In every fault script, among the next `k` calls either none is scheduled to
fail or there is a first one that is. -/
theorem first_fault (faults : List (Option String)) (k : Nat) :
    ∃ j, j ≤ k ∧ (∀ f ∈ faults.take j, f = none) ∧
      (j < k → ∃ e, faults[j]? = some (some e)) := by
  induction k generalizing faults with
  | zero => exact ⟨0, Nat.le_refl _, by simp, by simp⟩
  | succ k ih =>
    cases faults with
    | nil => exact ⟨k + 1, Nat.le_refl _, by simp, by simp⟩
    | cons f fs =>
      cases f with
      | some e => exact ⟨0, Nat.zero_le _, by simp, fun _ => ⟨e, by simp⟩⟩
      | none =>
        obtain ⟨j, hj, hq, hstop⟩ := ih fs
        refine ⟨j + 1, Nat.succ_le_succ hj, ?_, ?_⟩
        · intro f hf
          simp only [List.take_succ_cons, List.mem_cons] at hf
          rcases hf with rfl | hf
          · rfl
          · exact hq f hf
        · intro hlt
          simpa using hstop (Nat.lt_of_succ_lt_succ hlt)

/-- A deletion loop under a script whose first `j` entries are quiet and whose
next entry, if the loop gets that far, is a fault: the slots of the first `j`
handles are cleared, and the deletions attempted are those of the first `j + 1`
handles. -/
theorem del_each_prefix (c : Catalog) (hs : Handles) (w : World) (j : Nat)
    (hj : j ≤ hs.length) (hq : w.quiet j)
    (hstop : j < hs.length → ∃ e, w.faults[j]? = some (some e)) :
    (SQLExec.del_each c hs w).2.rel c = (hs.take j).foldl (fun r h => r.set h none) (w.rel c) ∧
      (SQLExec.del_each c hs w).2.calls = w.calls ++ (hs.take (j + 1)).map (Call.del c) := by
  induction hs generalizing w j with
  | nil =>
    have : j = 0 := by simpa using hj
    subst this
    simp [SQLExec.del_each]
  | cons h tl ih =>
    cases j with
    | zero =>
      obtain ⟨e, he⟩ := hstop (by simp)
      have hf : w.fault = some e := by
        unfold World.fault
        cases hfs : w.faults with
        | nil => simp [hfs] at he
        | cons f fs =>
          rw [hfs] at he
          simp only [List.getElem?_cons_zero, Option.some.injEq] at he
          simp [he]
      unfold SQLExec.del_each DbRelation.del
      simp only [hf, World.logged, List.take_zero, List.foldl_nil, Nat.zero_add,
        List.take_succ_cons, List.map_cons, List.map_nil, and_true]
      cases c <;> rfl
    | succ j =>
      obtain ⟨hf, hq1⟩ := quiet_succ w j (Call.del c h) hq
      have hdel : DbRelation.del c h w =
          (Except.ok (), (w.logged (Call.del c h)).setRel c ((w.rel c).set h none)) := by
        unfold DbRelation.del
        simp only [hf]
        cases c <;> rfl
      have hfaults : ((w.logged (Call.del c h)).setRel c ((w.rel c).set h none)).faults =
          w.faults.tail := by
        cases c <;> rfl
      have hq2 : ((w.logged (Call.del c h)).setRel c ((w.rel c).set h none)).quiet j := by
        unfold World.quiet at hq1 ⊢
        rw [hfaults]
        exact hq1
      have hstop2 : j < tl.length →
          ∃ e, ((w.logged (Call.del c h)).setRel c ((w.rel c).set h none)).faults[j]? =
            some (some e) := by
        intro hlt
        obtain ⟨e, he⟩ := hstop (by simpa using hlt)
        refine ⟨e, ?_⟩
        rw [hfaults]
        cases hfs : w.faults with
        | nil => simp [hfs] at he
        | cons f fs =>
          rw [hfs] at he
          simpa using he
      obtain ⟨i1, i2⟩ := ih _ j (by simpa using hj) hq2 hstop2
      unfold SQLExec.del_each
      rw [hdel]
      simp only []
      refine ⟨?_, ?_⟩
      · rw [i1]
        cases c <;> rfl
      · rw [i2]
        cases c <;> simp [World.setRel, World.logged]

theorem mem_select_iff (r : Relation) (f : ValueDict) (h : Handle) (x : ValueDict)
    (hx : (h, x) ∈ Relation.rows r) :
    h ∈ Relation.select r (some f) ↔ ValueDict.satisfies x f = true := by
  unfold Relation.select
  constructor
  · intro hm
    obtain ⟨⟨k, y⟩, hp, hk⟩ := List.mem_map.mp hm
    simp only at hk
    subst hk
    obtain ⟨hy, hsat⟩ := List.mem_filter.mp hp
    have g1 := rowsFrom_get r 0 k y hy
    have g2 := rowsFrom_get r 0 k x hx
    rw [g1] at g2
    simp only [Option.some.injEq] at g2
    subst g2
    exact hsat
  · intro hsat
    exact List.mem_map.mpr ⟨(h, x), List.mem_filter.mpr ⟨hx, hsat⟩, rfl⟩

/-- Deleting every selected handle leaves exactly the rows that do not match the
filter, with their handles and in their order. -/
theorem rows_after_del_selected (c : Catalog) (f : ValueDict) (w w' : World) (u : Unit)
    (hd : SQLExec.del_each c (Relation.select (w.rel c) (some f)) w = (Except.ok u, w')) :
    Relation.rows (w'.rel c) =
      (Relation.rows (w.rel c)).filter (fun p => !ValueDict.satisfies p.2 f) := by
  obtain ⟨d1, -, -, -⟩ := del_each_ok _ _ _ _ _ hd
  rw [d1, rows_del_all]
  apply List.filter_congr
  rintro ⟨h, x⟩ hp
  have := mem_select_iff (w.rel c) f h x hp
  by_cases hs : ValueDict.satisfies x f = true
  · simp [hs, this.mpr hs]
  · have hn : h ∉ Relation.select (w.rel c) (some f) := fun hm => hs (this.mp hm)
    simp [hs, hn]

theorem drop_error (name : Identifier) (w w1 : World) (e : Exn)
    (hd : DbRelation.drop name w = (Except.error e, w1)) :
    (∃ m, e = Exn.DbRelationError m) ∧ w1 = w.logged (Call.drop name) := by
  unfold DbRelation.drop at hd
  cases hf : w.fault with
  | some m =>
    simp only [hf, Prod.mk.injEq, Except.error.injEq] at hd
    exact ⟨⟨m, hd.1.symm⟩, hd.2.symm⟩
  | none =>
    simp only [hf] at hd
    split at hd
    · simp at hd
    · simp only [Prod.mk.injEq, Except.error.injEq] at hd
      exact ⟨⟨_, hd.1.symm⟩, hd.2.symm⟩

/-- A `drop` that fails with a relation error failed in one of its three mutating
steps, and the world it leaves is the one that step left. -/
theorem drop_failure_steps (statement : DropStatement) (w w' : World) (e : String)
    (hfail : SQLExec.drop statement w = (Except.error (Exn.DbRelationError e), w')) :
    SQLExec.del_each Catalog.columns
        (Relation.select w.columns (some [("table_name", Value.text statement.name)])) w
          = (Except.error (Exn.DbRelationError e), w') ∨
    (∃ w1, SQLExec.del_each Catalog.columns
        (Relation.select w.columns (some [("table_name", Value.text statement.name)])) w
          = (Except.ok (), w1) ∧
      DbRelation.drop statement.name w1 = (Except.error (Exn.DbRelationError e), w')) ∨
    (∃ w1 w2 h rest, SQLExec.del_each Catalog.columns
        (Relation.select w.columns (some [("table_name", Value.text statement.name)])) w
          = (Except.ok (), w1) ∧
      DbRelation.drop statement.name w1 = (Except.ok (), w2) ∧
      Relation.select w2.tables (some [("table_name", Value.text statement.name)]) = h :: rest ∧
      DbRelation.del Catalog.tables h w2 = (Except.error (Exn.DbRelationError e), w')) := by
  unfold SQLExec.drop at hfail
  by_cases htype : statement.type = DropStatement.EntityType.kTable
  swap
  · simp [htype] at hfail
  by_cases hguard : statement.name = Tables.TABLE_NAME ∨ statement.name = Columns.TABLE_NAME
  · simp [htype, hguard] at hfail
  simp only [htype, ne_eq, not_true_eq_false, if_false, hguard] at hfail
  cases h1 : SQLExec.del_each Catalog.columns
      (Relation.select w.columns (some [("table_name", Value.text statement.name)])) w with
  | mk r1 w1 =>
    rw [h1] at hfail
    cases r1 with
    | error e1 =>
      simp only [Prod.mk.injEq, Except.error.injEq] at hfail
      obtain ⟨rfl, rfl⟩ := hfail
      exact Or.inl rfl
    | ok u1 =>
      simp only [] at hfail
      cases h2 : DbRelation.drop statement.name w1 with
      | mk r2 w2 =>
        rw [h2] at hfail
        cases r2 with
        | error e2 =>
          simp only [Prod.mk.injEq, Except.error.injEq] at hfail
          obtain ⟨rfl, rfl⟩ := hfail
          exact Or.inr (Or.inl ⟨w1, rfl, h2⟩)
        | ok u2 =>
          simp only [] at hfail
          cases h3 : Relation.select w2.tables (some [("table_name", Value.text statement.name)]) with
          | nil => simp [h3] at hfail
          | cons h rest =>
            rw [h3] at hfail
            simp only [] at hfail
            cases h4 : DbRelation.del Catalog.tables h w2 with
            | mk r4 w4 =>
              rw [h4] at hfail
              cases r4 with
              | ok u4 => simp at hfail
              | error e4 =>
                simp only [Prod.mk.injEq, Except.error.injEq] at hfail
                obtain ⟨rfl, rfl⟩ := hfail
                exact Or.inr (Or.inr ⟨w1, w2, h, rest, rfl, h2, h3, h4⟩)

theorem index_drop_catalog (index : Identifier × Identifier) (w : World) :
    (DbIndex.drop index w).2.tables = w.tables ∧
    (DbIndex.drop index w).2.columns = w.columns ∧
    (DbIndex.drop index w).2.indices = w.indices := by
  unfold DbIndex.drop
  cases w.fault <;> simp only [] <;> (try split) <;> exact ⟨rfl, rfl, rfl⟩

/-- A successful `drop_index` on a statement targeting an index has dropped the
physical index and then deleted every selected indices row. -/
theorem drop_index_success_steps (statement : DropStatement) (w w' : World) (r : QueryResult)
    (htype : statement.type = DropStatement.EntityType.kIndex)
    (hdrop : SQLExec.drop_index statement w = (Except.ok r, w')) :
    ∃ w1, DbIndex.drop (statement.name, statement.indexName) w = (Except.ok (), w1) ∧
      SQLExec.del_each Catalog.indices
        (Relation.select w.indices (some [("table_name", Value.text statement.name),
          ("index_name", Value.text statement.indexName)])) w1 = (Except.ok (), w') ∧
      r = QueryResult.ofMessage ("dropped index " ++ statement.indexName) := by
  unfold SQLExec.drop_index at hdrop
  simp only [htype, ne_eq, not_true_eq_false, if_false, Indices.get_index] at hdrop
  have hfilter : ValueDict.assign (ValueDict.assign [] "table_name" (Value.text statement.name))
      "index_name" (Value.text statement.indexName) =
      [("table_name", Value.text statement.name),
       ("index_name", Value.text statement.indexName)] := by
    simp [ValueDict.assign]
  rw [hfilter] at hdrop
  cases h1 : DbIndex.drop (statement.name, statement.indexName) w with
  | mk r1 w1 =>
    rw [h1] at hdrop
    cases r1 with
    | error e => simp at hdrop
    | ok u1 =>
      simp only [] at hdrop
      cases h2 : SQLExec.del_each Catalog.indices
          (Relation.select w.indices (some [("table_name", Value.text statement.name),
            ("index_name", Value.text statement.indexName)])) w1 with
      | mk r2 w2 =>
        rw [h2] at hdrop
        cases r2 with
        | error e => simp at hdrop
        | ok u2 =>
          simp only [Prod.mk.injEq, Except.ok.injEq] at hdrop
          obtain ⟨hr, rfl⟩ := hdrop
          exact ⟨w1, rfl, h2, hr.symm⟩

theorem get_project_of_mem (row : ValueDict) (names : List Identifier) (key : Identifier)
    (hk : key ∈ names) :
    ValueDict.get (ValueDict.project row names) key = ValueDict.get row key := by
  unfold ValueDict.project
  induction names with
  | nil => simp at hk
  | cons n rest ih =>
    by_cases hn : n = key
    · subst hn
      cases hg : ValueDict.get row n with
      | none =>
        simp only [List.filterMap_cons, hg, Option.map_none']
        clear ih hk
        induction rest with
        | nil => rfl
        | cons m tl ih2 =>
          cases hm : ValueDict.get row m with
          | none => simpa [List.filterMap_cons, hm] using ih2
          | some v =>
            simp only [List.filterMap_cons, hm, Option.map_some', ValueDict.get]
            by_cases hmn : m = n
            · subst hmn; rw [hg] at hm; cases hm
            · simpa [hmn] using ih2
      | some v => simp [List.filterMap_cons, hg, ValueDict.get]
    · have hk' : key ∈ rest := by
        rcases List.mem_cons.mp hk with h | h
        · exact absurd h.symm hn
        · exact h
      cases hg : ValueDict.get row n with
      | none => simpa [List.filterMap_cons, hg] using ih hk'
      | some v => simpa [List.filterMap_cons, hg, ValueDict.get, hn] using ih hk'

/-- The physical drop logs itself and consumes one entry of the fault script,
whether it succeeds or raises. -/
theorem drop_calls (name : Identifier) (w : World) :
    (DbRelation.drop name w).2.calls = w.calls ++ [Call.drop name] ∧
      (DbRelation.drop name w).2.faults = w.faults.tail := by
  unfold DbRelation.drop
  cases w.fault <;> simp only [] <;> (try split) <;> exact ⟨rfl, rfl⟩

/-- The calls a deletion loop adds to the log are deletions of handles of its list,
in order, however it ends. -/
theorem del_each_calls (c : Catalog) (hs : Handles) (w : World) :
    ∃ k, (SQLExec.del_each c hs w).2.calls = w.calls ++ (hs.take k).map (Call.del c) := by
  induction hs generalizing w with
  | nil => exact ⟨0, by simp [SQLExec.del_each]⟩
  | cons h rest ih =>
    obtain ⟨f1, -⟩ := del_fields c h w
    unfold SQLExec.del_each
    cases hd : DbRelation.del c h w with
    | mk r w1 =>
      rw [hd] at f1
      simp only [] at f1
      cases r with
      | error e => exact ⟨1, by simp [f1]⟩
      | ok u =>
        obtain ⟨k, hk⟩ := ih w1
        exact ⟨k + 1, by simp [hk, f1]⟩

/-! ## Claims C11 to C20 -/

/-- C11 (error normalisation).  For every statement kind that has a handler, if the
handler `execute` dispatches to (`create`, `drop` or `show`) raises a relation
error with message `m`, `execute` raises the executor-level error whose message
is "DbRelationError: " followed by `m`, leaving the world the handler left; and
for every statement, a relation error never leaves `execute` as a relation error. -/
theorem execute_normalises_relation_errors (w w1 : World) (m : String) :
    (∀ s, SQLExec.create s w = (Except.error (Exn.DbRelationError m), w1) →
      SQLExec.execute (SQLStatement.kStmtCreate s) w =
        (Except.error (Exn.SQLExecError ("DbRelationError: " ++ m)), w1)) ∧
    (∀ s, SQLExec.drop s w = (Except.error (Exn.DbRelationError m), w1) →
      SQLExec.execute (SQLStatement.kStmtDrop s) w =
        (Except.error (Exn.SQLExecError ("DbRelationError: " ++ m)), w1)) ∧
    (∀ s, SQLExec.show s w = (Except.error (Exn.DbRelationError m), w1) →
      SQLExec.execute (SQLStatement.kStmtShow s) w =
        (Except.error (Exn.SQLExecError ("DbRelationError: " ++ m)), w1)) ∧
    (∀ statement, (SQLExec.execute statement w).1 ≠ Except.error (Exn.DbRelationError m)) := by
  refine ⟨?_, ?_, ?_, ?_⟩
  · intro s h
    rw [execute_of_handler]
    simp only [h]
  · intro s h
    rw [execute_of_handler]
    simp only [h]
  · intro s h
    rw [execute_of_handler]
    simp only [h]
  · intro statement
    rw [execute_of_handler]
    exact normalise_ne_relation _ m

/-- Instance of C11: `CREATE TABLE T (a INT, b TEXT)` whose physical creation fails
with "disk full" leaves `execute` as the executor error "DbRelationError: disk full". -/
theorem execute_normalises_relation_errors_witness :
    SQLExec.create Sample.createT Sample.createFails =
        (Except.error (Exn.DbRelationError "disk full"),
          (SQLExec.create Sample.createT Sample.createFails).2) ∧
      SQLExec.execute (SQLStatement.kStmtCreate Sample.createT) Sample.createFails =
        (Except.error (Exn.SQLExecError "DbRelationError: disk full"),
          (SQLExec.create Sample.createT Sample.createFails).2) :=
  ⟨rfl, (execute_normalises_relation_errors Sample.createFails
    (SQLExec.create Sample.createT Sample.createFails).2 "disk full").1 Sample.createT rfl⟩

/-- C12 (drop index through the executor), evaluated on the code: for
`DROP INDEX I FROM T`, with the index present, `execute` raises the executor
error "Unrecongized statement" and changes nothing, because `drop` refuses every
statement whose target is not a table and never calls `drop_index`; the handler
`drop_index` itself, on the same input, drops the index and deletes its two
indices rows. -/
theorem execute_drop_index_unrecognized :
    SQLExec.execute (SQLStatement.kStmtDrop Sample.dropIndexI) Sample.indexed =
        (Except.error (Exn.SQLExecError "Unrecongized statement"), Sample.indexed) ∧
      (SQLExec.drop_index Sample.dropIndexI Sample.indexed).1 =
        Except.ok (QueryResult.ofMessage "dropped index I") ∧
      Relation.rows (SQLExec.drop_index Sample.dropIndexI Sample.indexed).2.indices =
        [(2, Sample.indexRow "T" "J" 1 "b" 0), (3, Sample.indexRow "U" "I" 1 "a" 1)] :=
  ⟨rfl, rfl, by decide⟩

/-- C13 (show index through the executor), evaluated on the code: for
`SHOW INDEX FROM T`, `execute` returns the result without columns whose message
is "not implemented", because the `switch` of `show` has no case for an index and
never calls `show_index`; the handler `show_index` itself, on the same input,
returns the six column names and the three indices rows of `T`. -/
theorem execute_show_index_not_implemented :
    SQLExec.execute (SQLStatement.kStmtShow Sample.showIndexT) Sample.indexed =
        (Except.ok { column_names := none, column_attributes := none, rows := none,
                     message := "not implemented" }, Sample.indexed) ∧
      (SQLExec.show_index Sample.showIndexT Sample.indexed).1 =
        Except.ok
          { column_names := some ["table_name", "index_name", "seq_in_index", "column_name",
              "index_type", "is_unique"],
            column_attributes := some [{ data_type := DataType.TEXT }],
            rows := some [Sample.indexRow "T" "I" 1 "a" 1, Sample.indexRow "T" "I" 2 "b" 1,
              Sample.indexRow "T" "J" 1 "b" 0],
            message := "successfully returned 3 rows" } :=
  ⟨rfl, rfl⟩

/-- C14 (result rendering).  For every result and every text `out` already in the
stream: if the column names are absent, what is written is exactly the message;
if the result has column names `n1..nk` and rows `r1..rm`, each row containing
every `ni`, what is written is each name followed by one space, a newline, "+"
followed by `k` copies of "----------+", a newline, then for each row in order
each column's value followed by one space and a newline at the end of the row,
and finally the message.  A value is written by its tag: an integer as its
decimal digits, a text between double quotes, a boolean as `false` when its
number is 0 and `true` otherwise, any other tag as "???". -/
theorem print_renders_result (qres : QueryResult) (out : String) :
    (qres.column_names = none → QueryResult.print qres out = (Except.ok (), out ++ qres.message)) ∧
    (∀ names rows, qres.column_names = some names → qres.rows = some rows →
      (∀ row ∈ rows, ∀ n ∈ names, (ValueDict.get row n).isSome) →
      QueryResult.print qres out =
        (Except.ok (),
          out ++ String.join (names.map (fun n => n ++ " ")) ++ "\n" ++
            "+" ++ String.join (List.replicate names.length "----------+") ++ "\n" ++
            String.join (rows.map (fun row =>
              String.join (names.map (fun n =>
                match ValueDict.get row n with
                | some value => QueryResult.print_value value ++ " "
                | none => "")) ++ "\n")) ++
            qres.message)) ∧
    (∀ n : Int, QueryResult.print_value (Value.int n) = toString n) ∧
    (∀ s : String, QueryResult.print_value (Value.text s) = "\x22" ++ s ++ "\x22") ∧
    (∀ n : Int, QueryResult.print_value (Value.boolean n) = if n = 0 then "false" else "true") ∧
    QueryResult.print_value Value.other = "???" := by
  refine ⟨?_, ?_, fun _ => rfl, fun _ => rfl, fun _ => rfl, rfl⟩
  · intro h
    unfold QueryResult.print
    rw [h]
  · intro names rows hn hr hrows
    unfold QueryResult.print
    rw [hn, hr]
    simp only []
    rw [print_header, print_rule, print_rows_ok _ _ _ hrows, List.length_range]

/-- Instance of C14: a result with a text, an integer and a boolean column and two
rows, and a result without columns. -/
theorem print_renders_result_witness :
    QueryResult.print
      { column_names := some ["index_name", "seq_in_index", "is_unique"],
        column_attributes := some [{ data_type := DataType.TEXT }],
        rows := some [Sample.indexRow "T" "I" 1 "a" 1, Sample.indexRow "T" "J" 12 "b" 0],
        message := "successfully returned 2 rows" } "" =
      (Except.ok (),
        "index_name seq_in_index is_unique \n+----------+----------+----------+\n\x22I\x22 1 true \n\x22J\x22 12 false \nsuccessfully returned 2 rows") ∧
    QueryResult.print (QueryResult.ofMessage "not implemented") "Result: " =
      (Except.ok (), "Result: not implemented") := by
  constructor
  · have h := (print_renders_result
      { column_names := some ["index_name", "seq_in_index", "is_unique"],
        column_attributes := some [{ data_type := DataType.TEXT }],
        rows := some [Sample.indexRow "T" "I" 1 "a" 1, Sample.indexRow "T" "J" 12 "b" 0],
        message := "successfully returned 2 rows" } "").2.1
      ["index_name", "seq_in_index", "is_unique"]
      [Sample.indexRow "T" "I" 1 "a" 1, Sample.indexRow "T" "J" 12 "b" 0] rfl rfl (by decide)
    rw [h]
    rfl
  · exact (print_renders_result (QueryResult.ofMessage "not implemented") "Result: ").1 rfl

/-- C15 (parallel attribute list), evaluated on the code for every statement and
world: `show_columns` returns three column names with a single attribute and
`show_index` six column names with a single attribute, so the attribute list is
not parallel to the name list; only `show_tables`, which takes both lists from
`get_columns`, returns lists of the same length. -/
theorem show_handlers_attribute_counts (statement : ShowStatement) (w : World) :
    (∃ q, SQLExec.show_columns statement w = (Except.ok q, w) ∧
      q.column_names.map List.length = some 3 ∧ q.column_attributes.map List.length = some 1) ∧
    (∃ q, SQLExec.show_index statement w = (Except.ok q, w) ∧
      q.column_names.map List.length = some 6 ∧ q.column_attributes.map List.length = some 1) ∧
    (match (SQLExec.show_tables w).1 with
      | Except.ok q =>
        q.column_names.map List.length = some 1 ∧ q.column_attributes.map List.length = some 1
      | Except.error e => e = Exn.out_of_range) := by
  refine ⟨⟨_, rfl, rfl, rfl⟩, ⟨_, rfl, rfl, rfl⟩, ?_⟩
  unfold SQLExec.show_tables
  simp only []
  cases h : SQLExec.show_tables_rows w (Tables.get_columns Tables.TABLE_NAME w).1
      (Relation.select w.tables none) [] with
  | ok rows => exact ⟨rfl, rfl⟩
  | error e =>
    simp only []
    exact show_tables_rows_error _ _ _ _ _ h

/-- C16 (show is read-only).  For every SHOW statement, of any kind, and every
world, `show` leaves the world exactly as it was (the tables, columns and indices
relations, the physical relations and indices, and the log of mutating storage
calls: no insert, delete, create or drop is performed); the same holds of
`show_tables`, `show_columns` and `show_index` called directly. -/
theorem show_read_only (statement : ShowStatement) (w : World) :
    (SQLExec.show statement w).2 = w ∧
      (SQLExec.show_tables w).2 = w ∧
      (SQLExec.show_columns statement w).2 = w ∧
      (SQLExec.show_index statement w).2 = w := by
  have ht : (SQLExec.show_tables w).2 = w := by
    unfold SQLExec.show_tables
    simp only []
    split <;> rfl
  refine ⟨?_, ht, rfl, rfl⟩
  unfold SQLExec.show
  split
  · exact ht
  · rfl
  · rfl

/-- Counterexample to C17 as stated: `CREATE TABLE T (a INT, b TEXT)` whose physical
creation fails, the deletion of the columns row of `a` then failing with "busy".
The deletion of the row of `b` is never attempted (it would succeed), so that
row stays; the deletion of the tables row is attempted. -/
theorem create_compensation_skips_later_rows :
    (SQLExec.create Sample.createT Sample.firstUndoFails).1 =
        Except.error (Exn.DbRelationError "disk full") ∧
      Relation.rows (SQLExec.create Sample.createT Sample.firstUndoFails).2.columns =
        [(0, [("table_name", Value.text "T"), ("data_type", Value.text "INT"),
              ("column_name", Value.text "a")]),
         (1, [("table_name", Value.text "T"), ("data_type", Value.text "TEXT"),
              ("column_name", Value.text "b")])] ∧
      (SQLExec.create Sample.createT Sample.firstUndoFails).2.calls =
        [Call.insert Catalog.tables [("table_name", Value.text "T")],
         Call.insert Catalog.columns [("table_name", Value.text "T"),
           ("data_type", Value.text "INT"), ("column_name", Value.text "a")],
         Call.insert Catalog.columns [("table_name", Value.text "T"),
           ("data_type", Value.text "TEXT"), ("column_name", Value.text "b")],
         Call.create "T", Call.del Catalog.columns 0, Call.del Catalog.tables 0] ∧
      (DbRelation.del Catalog.columns 1
        (SQLExec.create Sample.createT Sample.firstUndoFails).2).1 = Except.ok () :=
  ⟨rfl, by decide, by decide, rfl⟩

/-- C17, amended (best-effort column compensation).  When the tables row has been
inserted (`hins`) and the inner block fails with a relation error after collecting
the handles `columnHandler` of the inserted columns rows (`htry`), the original
error leaves `create`, and there is a position `j` (the number of compensating
deletions that succeed before one is scheduled to fail, or the number of handles
when none is) such that: the deletions attempted are those of the first `j + 1`
handles, in insertion order, followed by the deletion of the tables row; and the
columns rows afterwards are the rows before compensation without those of the
first `j` handles.  So the rows before the first failing deletion are gone, the
failing row and the rows after it stay, and the tables row compensation is
attempted in every case. -/
theorem create_compensation_until_first_failure (statement : CreateStatement) (w w1 w2 : World)
    (tableHandler : Handle) (columnHandler : Handles) (m : String)
    (hins : DbRelation.insert Catalog.tables [("table_name", Value.text statement.tableName)] w
      = (Except.ok tableHandler, w1))
    (htry : SQLExec.create_try statement [("table_name", Value.text statement.tableName)] w1
      = (Except.error (Exn.DbRelationError m), columnHandler, w2)) :
    (SQLExec.create statement w).1 = Except.error (Exn.DbRelationError m) ∧
    ∃ j, j ≤ columnHandler.length ∧ w2.quiet j ∧
      (j < columnHandler.length → ∃ e, w2.faults[j]? = some (some e)) ∧
      (SQLExec.create statement w).2.calls =
        w2.calls ++ (columnHandler.take (j + 1)).map (Call.del Catalog.columns) ++
          [Call.del Catalog.tables tableHandler] ∧
      Relation.rows (SQLExec.create statement w).2.columns =
        (Relation.rows w2.columns).filter (fun p => !decide (p.1 ∈ columnHandler.take j)) := by
  have hrun : SQLExec.create statement w =
      (Except.error (Exn.DbRelationError m),
        (DbRelation.del Catalog.tables tableHandler
          (SQLExec.del_each Catalog.columns columnHandler w2).2).2) := by
    unfold SQLExec.create
    simp only [hins, htry, swallow_del_each, swallow_del]
  obtain ⟨j, hj, hq, hstop⟩ := first_fault w2.faults columnHandler.length
  obtain ⟨l2, l3⟩ := del_each_prefix Catalog.columns columnHandler w2 j hj hq hstop
  obtain ⟨f1, -, -, -, f5⟩ := del_fields Catalog.tables tableHandler
    (SQLExec.del_each Catalog.columns columnHandler w2).2
  rw [hrun]
  refine ⟨rfl, j, hj, hq, hstop, ?_, ?_⟩
  · simp only []
    rw [f1, l3]
  · have hc := f5 Catalog.columns (by decide)
    simp only [World.rel] at hc l2
    simp only []
    rw [hc, l2, rows_del_all]

/-- Instance of C17 amended: `CREATE TABLE T (a INT, b TEXT)` whose physical creation
fails and whose first compensating deletion fails. -/
theorem create_compensation_until_first_failure_witness :
    (SQLExec.create Sample.createT Sample.firstUndoFails).1 =
        Except.error (Exn.DbRelationError "disk full") ∧
      (SQLExec.create Sample.createT Sample.firstUndoFails).2.calls =
        [Call.insert Catalog.tables [("table_name", Value.text "T")],
         Call.insert Catalog.columns [("table_name", Value.text "T"),
           ("data_type", Value.text "INT"), ("column_name", Value.text "a")],
         Call.insert Catalog.columns [("table_name", Value.text "T"),
           ("data_type", Value.text "TEXT"), ("column_name", Value.text "b")],
         Call.create "T"] ++ [Call.del Catalog.columns 0] ++ [Call.del Catalog.tables 0] ∧
      Relation.rows (SQLExec.create Sample.createT Sample.firstUndoFails).2.columns =
        [(0, [("table_name", Value.text "T"), ("data_type", Value.text "INT"),
              ("column_name", Value.text "a")]),
         (1, [("table_name", Value.text "T"), ("data_type", Value.text "TEXT"),
              ("column_name", Value.text "b")])] :=
  ⟨(create_compensation_until_first_failure Sample.createT Sample.firstUndoFails
      (DbRelation.insert Catalog.tables [("table_name", Value.text "T")] Sample.firstUndoFails).2
      (SQLExec.create_try Sample.createT [("table_name", Value.text "T")]
        (DbRelation.insert Catalog.tables [("table_name", Value.text "T")]
          Sample.firstUndoFails).2).2.2
      0 [0, 1] "disk full" rfl rfl).1,
    by decide, by decide⟩

/-- C18 (uncompensated drop ordering).  For `DROP TABLE T` with `T` past the guard:
whenever one of the three mutating steps of `drop` raises a relation error `e`
(a columns deletion, the physical drop after all columns deletions succeeded, or
the tables deletion after the physical drop succeeded), `drop` fails with that
same error `e` and leaves exactly the world `w'` the failing call left; and a
`drop` that fails with a relation error fails in one of these three ways.  Nothing
is restored: the calls such a failed `drop` has added to the log are deletions of
columns rows, the physical drop of `T` and the deletion of a tables row, never an
insertion or a creation.  In every state reached by such a failed `drop`: if the
physical relation `T` was present before and is gone after, the columns relation
holds no row with `table_name` T; the physical store is either without `T` or
untouched; and the rows of the tables relation are the ones before the call. -/
theorem drop_failure_uncompensated (statement : DropStatement) (w w' : World) (e : String)
    (htable : statement.type = DropStatement.EntityType.kTable)
    (hguard : ¬ (statement.name = Tables.TABLE_NAME ∨ statement.name = Columns.TABLE_NAME)) :
    ((SQLExec.del_each Catalog.columns
        (Relation.select w.columns (some [("table_name", Value.text statement.name)])) w
          = (Except.error (Exn.DbRelationError e), w') ∨
      (∃ w1, SQLExec.del_each Catalog.columns
          (Relation.select w.columns (some [("table_name", Value.text statement.name)])) w
            = (Except.ok (), w1) ∧
        DbRelation.drop statement.name w1 = (Except.error (Exn.DbRelationError e), w')) ∨
      (∃ w1 w2 h rest, SQLExec.del_each Catalog.columns
          (Relation.select w.columns (some [("table_name", Value.text statement.name)])) w
            = (Except.ok (), w1) ∧
        DbRelation.drop statement.name w1 = (Except.ok (), w2) ∧
        Relation.select w2.tables (some [("table_name", Value.text statement.name)]) = h :: rest ∧
        DbRelation.del Catalog.tables h w2 = (Except.error (Exn.DbRelationError e), w'))) ↔
      SQLExec.drop statement w = (Except.error (Exn.DbRelationError e), w')) ∧
    (SQLExec.drop statement w = (Except.error (Exn.DbRelationError e), w') →
      (∃ done, w'.calls = w.calls ++ done ∧ ∀ c ∈ done,
        (∃ h, c = Call.del Catalog.columns h) ∨ c = Call.drop statement.name ∨
          ∃ h, c = Call.del Catalog.tables h) ∧
      (statement.name ∈ w.physical → statement.name ∉ w'.physical →
        Relation.referencing w'.columns statement.name = []) ∧
      (statement.name ∉ w'.physical ∨ w'.physical = w.physical) ∧
      Relation.rows w'.tables = Relation.rows w.tables) := by
  refine ⟨⟨?_, drop_failure_steps statement w w' e⟩, ?_⟩
  · intro hs
    unfold SQLExec.drop
    simp only [htable, ne_eq, not_true_eq_false, if_false, hguard]
    rcases hs with h1 | ⟨w1, h1, h2⟩ | ⟨w1, w2, h, rest, h1, h2, h3, h4⟩
    · rw [h1]
    · rw [h1]
      simp only []
      rw [h2]
    · rw [h1]
      simp only []
      rw [h2]
      simp only []
      rw [h3]
      simp only []
      rw [h4]
  intro hfail
  have hsteps := drop_failure_steps statement w w' e hfail
  have hcalls1 := del_each_calls Catalog.columns
    (Relation.select w.columns (some [("table_name", Value.text statement.name)])) w
  refine ⟨?_, ?_, ?_, ?_⟩
  · obtain ⟨k, hk⟩ := hcalls1
    have hdels : ∀ c ∈ ((Relation.select w.columns
        (some [("table_name", Value.text statement.name)])).take k).map (Call.del Catalog.columns),
        (∃ h, c = Call.del Catalog.columns h) ∨ c = Call.drop statement.name ∨
          ∃ h, c = Call.del Catalog.tables h := by
      intro c hc
      obtain ⟨h, -, rfl⟩ := List.mem_map.mp hc
      exact Or.inl ⟨h, rfl⟩
    rcases hsteps with h1 | ⟨w1, h1, h2⟩ | ⟨w1, w2, h, rest, h1, h2, h3, h4⟩
    · rw [h1] at hk
      exact ⟨_, hk, hdels⟩
    · rw [h1] at hk
      simp only [] at hk
      obtain ⟨c1, -⟩ := drop_calls statement.name w1
      rw [h2] at c1
      simp only [] at c1
      refine ⟨(((Relation.select w.columns
        (some [("table_name", Value.text statement.name)])).take k).map (Call.del Catalog.columns)) ++
        [Call.drop statement.name], by rw [c1, hk, List.append_assoc], ?_⟩
      intro c hc
      rcases List.mem_append.mp hc with hc | hc
      · exact hdels c hc
      · exact Or.inr (Or.inl (List.mem_singleton.mp hc))
    · rw [h1] at hk
      simp only [] at hk
      obtain ⟨c1, -⟩ := drop_calls statement.name w1
      rw [h2] at c1
      simp only [] at c1
      obtain ⟨c2, -⟩ := del_fields Catalog.tables h w2
      rw [h4] at c2
      simp only [] at c2
      refine ⟨(((Relation.select w.columns
        (some [("table_name", Value.text statement.name)])).take k).map (Call.del Catalog.columns)) ++
        [Call.drop statement.name] ++ [Call.del Catalog.tables h],
        by rw [c2, c1, hk]; simp only [List.append_assoc], ?_⟩
      intro c hc
      rcases List.mem_append.mp hc with hc | hc
      · rcases List.mem_append.mp hc with hc | hc
        · exact hdels c hc
        · exact Or.inr (Or.inl (List.mem_singleton.mp hc))
      · exact Or.inr (Or.inr ⟨h, List.mem_singleton.mp hc⟩)
  · intro hin hout
    rcases hsteps with h1 | ⟨w1, h1, h2⟩ | ⟨w1, w2, h, rest, h1, h2, h3, h4⟩
    · have hp := (del_each_frame Catalog.columns
        (Relation.select w.columns (some [("table_name", Value.text statement.name)])) w).1
      rw [h1] at hp
      exact absurd (hp ▸ hin) hout
    · obtain ⟨-, hw'⟩ := drop_error _ _ _ _ h2
      have hp := (del_each_frame Catalog.columns
        (Relation.select w.columns (some [("table_name", Value.text statement.name)])) w).1
      rw [h1] at hp
      have : w'.physical = w.physical := by rw [hw']; exact hp
      exact absurd (this ▸ hin) hout
    · have hrows := rows_after_del_selected Catalog.columns _ w w1 () h1
      have hcat := drop_catalog statement.name w1
      rw [h2] at hcat
      obtain ⟨-, hw'⟩ := del_error _ _ _ _ _ h4
      have hc : w'.columns = w1.columns := by rw [hw']; exact hcat.2.1
      unfold Relation.referencing
      rw [hc]
      simp only [World.rel] at hrows
      rw [hrows, List.filter_filter]
      apply List.filter_eq_nil_iff.mpr
      intro p _
      simp
  · rcases hsteps with h1 | ⟨w1, h1, h2⟩ | ⟨w1, w2, h, rest, h1, h2, h3, h4⟩
    · right
      have hp := (del_each_frame Catalog.columns
        (Relation.select w.columns (some [("table_name", Value.text statement.name)])) w).1
      rw [h1] at hp
      exact hp
    · right
      obtain ⟨-, hw'⟩ := drop_error _ _ _ _ h2
      have hp := (del_each_frame Catalog.columns
        (Relation.select w.columns (some [("table_name", Value.text statement.name)])) w).1
      rw [h1] at hp
      rw [hw']; exact hp
    · left
      obtain ⟨-, hw'⟩ := del_error _ _ _ _ _ h4
      have hp2 := drop_ok _ _ _ _ h2
      have : w'.physical = w2.physical := by rw [hw']; rfl
      rw [this, hp2]
      simp
  · rcases hsteps with h1 | ⟨w1, h1, h2⟩ | ⟨w1, w2, h, rest, h1, h2, h3, h4⟩
    · have hp := (del_each_frame Catalog.columns
        (Relation.select w.columns (some [("table_name", Value.text statement.name)])) w).2.2
          Catalog.tables (by decide)
      rw [h1] at hp
      simp only [World.rel] at hp
      rw [hp]
    · obtain ⟨-, hw'⟩ := drop_error _ _ _ _ h2
      have hp := (del_each_frame Catalog.columns
        (Relation.select w.columns (some [("table_name", Value.text statement.name)])) w).2.2
          Catalog.tables (by decide)
      rw [h1] at hp
      simp only [World.rel] at hp
      have : w'.tables = w1.tables := by rw [hw']; rfl
      rw [this, hp]
    · obtain ⟨-, hw'⟩ := del_error _ _ _ _ _ h4
      have hp := (del_each_frame Catalog.columns
        (Relation.select w.columns (some [("table_name", Value.text statement.name)])) w).2.2
          Catalog.tables (by decide)
      rw [h1] at hp
      simp only [World.rel] at hp
      have hcat := drop_catalog statement.name w1
      rw [h2] at hcat
      have : w'.tables = w2.tables := by rw [hw']; rfl
      rw [this, hcat.1, hp]

/-- Instance of C18: `DROP TABLE T` whose tables deletion fails with "locked" after
the columns deletion and the physical drop succeeded; the error leaves `drop` with
the world of the failing call, `T` is physically gone and has no columns row. -/
theorem drop_failure_uncompensated_witness :
    SQLExec.drop Sample.dropT Sample.tablesDelFails =
        (Except.error (Exn.DbRelationError "locked"),
          (DbRelation.del Catalog.tables 3
            (DbRelation.drop "T"
              (SQLExec.del_each Catalog.columns [2] Sample.tablesDelFails).2).2).2) ∧
      (SQLExec.drop Sample.dropT Sample.tablesDelFails).2.calls =
        [Call.del Catalog.columns 2, Call.drop "T", Call.del Catalog.tables 3] ∧
      ("T" ∈ Sample.tablesDelFails.physical ∧
        "T" ∉ (SQLExec.drop Sample.dropT Sample.tablesDelFails).2.physical) ∧
      Relation.referencing (SQLExec.drop Sample.dropT Sample.tablesDelFails).2.columns "T" = [] ∧
      Relation.rows (SQLExec.drop Sample.dropT Sample.tablesDelFails).2.tables =
        Relation.rows Sample.tablesDelFails.tables :=
  have hfwd := (drop_failure_uncompensated Sample.dropT Sample.tablesDelFails
    (DbRelation.del Catalog.tables 3
      (DbRelation.drop "T"
        (SQLExec.del_each Catalog.columns [2] Sample.tablesDelFails).2).2).2
    "locked" rfl (by decide)).1.mp
    (Or.inr (Or.inr ⟨(SQLExec.del_each Catalog.columns [2] Sample.tablesDelFails).2,
      (DbRelation.drop "T" (SQLExec.del_each Catalog.columns [2] Sample.tablesDelFails).2).2,
      3, [], rfl, rfl, rfl, rfl⟩))
  have h := (drop_failure_uncompensated Sample.dropT Sample.tablesDelFails
    (SQLExec.drop Sample.dropT Sample.tablesDelFails).2 "locked" rfl (by decide)).2 rfl
  ⟨hfwd, by decide, ⟨by decide, by decide⟩, h.2.1 (by decide) (by decide), h.2.2.2⟩

/-- C19 (index lifecycle at the handler).  When `drop_index` succeeds on a statement
targeting index `I` of table `T`, in the range of the two `unsigned int` of the
handlers (fewer than `2 ^ 32` handles selected by `drop_index`, fewer than `2 ^ 32`
rows of `T` remaining): its message is "dropped index I"; the indices relation
holds no row matching both `table_name` T and `index_name` I; the rows not matching
both are exactly the rows it held before, unchanged; and a following `show_index`
for `T` returns the projections of the remaining rows of `T` with the message
"successfully returned N rows", N being their number, none of them naming `I`. -/
theorem drop_index_lifecycle (statement : DropStatement) (w w' : World) (r : QueryResult)
    (htype : statement.type = DropStatement.EntityType.kIndex)
    (hhandles : (Relation.select w.indices (some [("table_name", Value.text statement.name),
      ("index_name", Value.text statement.indexName)])).length < 2 ^ 32)
    (hdrop : SQLExec.drop_index statement w = (Except.ok r, w'))
    (hcount : ((Relation.rows w'.indices).filter (fun p =>
      ValueDict.satisfies p.2 [("table_name", Value.text statement.name)])).length < 2 ^ 32) :
    r = QueryResult.ofMessage ("dropped index " ++ statement.indexName) ∧
    (Relation.rows w'.indices).filter (fun p => ValueDict.satisfies p.2
      [("table_name", Value.text statement.name),
       ("index_name", Value.text statement.indexName)]) = [] ∧
    Relation.rows w'.indices = (Relation.rows w.indices).filter (fun p =>
      !ValueDict.satisfies p.2 [("table_name", Value.text statement.name),
        ("index_name", Value.text statement.indexName)]) ∧
    SQLExec.show_index { type := ShowStatement.EntityType.kIndex, tableName := statement.name } w' =
      (Except.ok
        { column_names := some ["table_name", "index_name", "seq_in_index", "column_name",
            "index_type", "is_unique"],
          column_attributes := some [{ data_type := DataType.TEXT }],
          rows := some (((Relation.rows w'.indices).filter (fun p =>
              ValueDict.satisfies p.2 [("table_name", Value.text statement.name)])).map
            (fun p => ValueDict.project p.2 ["table_name", "index_name", "seq_in_index",
              "column_name", "index_type", "is_unique"])),
          message := "successfully returned " ++
            toString ((Relation.rows w'.indices).filter (fun p =>
              ValueDict.satisfies p.2 [("table_name", Value.text statement.name)])).length ++
            " rows" }, w') ∧
    ∀ row ∈ ((Relation.rows w'.indices).filter (fun p =>
          ValueDict.satisfies p.2 [("table_name", Value.text statement.name)])).map
        (fun p => ValueDict.project p.2 ["table_name", "index_name", "seq_in_index",
          "column_name", "index_type", "is_unique"]),
      ValueDict.get row "index_name" ≠ some (Value.text statement.indexName) := by
  obtain ⟨w1, h1, h2, hr⟩ := drop_index_success_steps statement w w' r htype hdrop
  have hcat := index_drop_catalog (statement.name, statement.indexName) w
  rw [h1] at hcat
  have hw1 : w1.indices = w.indices := hcat.2.2
  have hrows : Relation.rows w'.indices = (Relation.rows w.indices).filter (fun p =>
      !ValueDict.satisfies p.2 [("table_name", Value.text statement.name),
        ("index_name", Value.text statement.indexName)]) := by
    have h2' : SQLExec.del_each Catalog.indices
        (Relation.select (w1.rel Catalog.indices) (some [("table_name", Value.text statement.name),
          ("index_name", Value.text statement.indexName)])) w1 = (Except.ok (), w') := by
      simp only [World.rel, hw1]
      exact h2
    have := rows_after_del_selected Catalog.indices _ w1 w' () h2'
    simp only [World.rel, hw1] at this
    exact this
  refine ⟨hr, ?_, hrows, ?_, ?_⟩
  · rw [hrows, List.filter_filter]
    apply List.filter_eq_nil_iff.mpr
    intro p _
    simp
  · unfold SQLExec.show_index
    have hf : ValueDict.assign [] "table_name" (Value.text statement.name) =
        [("table_name", Value.text statement.name)] := rfl
    simp only [hf]
    have hsel := select_project w'.indices (some [("table_name", Value.text statement.name)])
      ["table_name", "index_name", "seq_in_index", "column_name", "index_type", "is_unique"]
    simp only [] at hsel
    have hlen : (Relation.select w'.indices (some [("table_name", Value.text statement.name)])).length
        = ((Relation.rows w'.indices).filter (fun p =>
            ValueDict.satisfies p.2 [("table_name", Value.text statement.name)])).length := by
      unfold Relation.select
      rw [List.length_map]
    rw [hsel, hlen, Nat.mod_eq_of_lt hcount]
  · intro row hrow
    obtain ⟨⟨h, x⟩, hp, rfl⟩ := List.mem_map.mp hrow
    obtain ⟨hmem, hsat⟩ := List.mem_filter.mp hp
    rw [hrows] at hmem
    obtain ⟨-, hnot⟩ := List.mem_filter.mp hmem
    simp only []
    rw [get_project_of_mem _ _ _ (by simp)]
    intro hidx
    simp only [ValueDict.satisfies, List.all_cons, List.all_nil, Bool.and_true,
      decide_eq_true_eq] at hsat
    simp [ValueDict.satisfies, hsat, hidx] at hnot

/-- Instance of C19: `DROP INDEX I FROM T` on a catalog with the indices `I` and `J` on
`T` and an index `I` on `U`; `SHOW INDEX FROM T` then returns the row of `J`. -/
theorem drop_index_lifecycle_witness :
    SQLExec.drop_index Sample.dropIndexI Sample.indexed =
        (Except.ok (QueryResult.ofMessage "dropped index I"),
          (SQLExec.drop_index Sample.dropIndexI Sample.indexed).2) ∧
      Relation.rows (SQLExec.drop_index Sample.dropIndexI Sample.indexed).2.indices =
        [(2, Sample.indexRow "T" "J" 1 "b" 0), (3, Sample.indexRow "U" "I" 1 "a" 1)] ∧
      (SQLExec.show_index Sample.showIndexT
        (SQLExec.drop_index Sample.dropIndexI Sample.indexed).2).1 =
        Except.ok
          { column_names := some ["table_name", "index_name", "seq_in_index", "column_name",
              "index_type", "is_unique"],
            column_attributes := some [{ data_type := DataType.TEXT }],
            rows := some [Sample.indexRow "T" "J" 1 "b" 0],
            message := "successfully returned 1 rows" } := by
  have h := drop_index_lifecycle Sample.dropIndexI Sample.indexed
    (SQLExec.drop_index Sample.dropIndexI Sample.indexed).2
    (QueryResult.ofMessage "dropped index I") rfl (by decide) rfl (by decide)
  refine ⟨rfl, ?_, ?_⟩
  · rw [h.2.2.1]
    decide
  · have h4 := h.2.2.2.1
    simp only [Sample.dropIndexI] at h4
    simp only [Sample.showIndexT, h4]
    rfl

/-- C20 (the two source files agree at the executor boundary).  For every
statement and every world, `execute` of SQLExec.cpp and `execute` of SQLexec.cpp
return the same result or raise the same error and leave the same world, although
their index handlers differ on every input: neither `drop` nor `show` calls them. -/
theorem execute_variants_agree (statement : SQLStatement) (w : World) (s : ShowStatement)
    (d : DropStatement) :
    SQLExec.execute statement w = Variant.SQLExec.execute statement w ∧
      (SQLExec.show_index s w).1 ≠ (Variant.SQLExec.show_index s w).1 ∧
      (SQLExec.drop_index d w).1 ≠ (Variant.SQLExec.drop_index d w).1 := by
  refine ⟨?_, ?_, ?_⟩
  · unfold Variant.SQLExec.execute SQLExec.execute
    cases statement with
    | kStmtCreate s => simp only [variant_create]
    | kStmtDrop s => simp only [variant_drop]
    | kStmtShow s => simp only [variant_show]
    | other k => rfl
  · simp [SQLExec.show_index, Variant.SQLExec.show_index, QueryResult.ofMessage]
  · unfold SQLExec.drop_index Variant.SQLExec.drop_index
    split
    · simp [QueryResult.ofMessage]
    · simp only []
      split
      · simp
      · split
        · simp
        · simp only [QueryResult.ofMessage, ne_eq, Except.ok.injEq, QueryResult.mk.injEq,
            true_and]
          exact dropped_index_ne _

/-! ## Lemmas for claims C21 and C22 -/

/-- Clearing the slot of a stored row removes that row from the rows of the
relation and nothing else: the rows before it (all with smaller handles) and the
rows after it stay in place. -/
theorem rowsFrom_split (r : Relation) (i h : Nat) (x : ValueDict)
    (hx : (h, x) ∈ Relation.rowsFrom i r) :
    ∃ pre post, Relation.rowsFrom i r = pre ++ (h, x) :: post ∧
      Relation.rowsFrom i (r.set (h - i) none) = pre ++ post ∧
      ∀ (k : Nat) (y : ValueDict), (k, y) ∈ pre → k < h := by
  induction r generalizing i with
  | nil => simp [Relation.rowsFrom] at hx
  | cons a t ih =>
    have step : (h, x) ∈ Relation.rowsFrom (i + 1) t →
        ∃ pre post, Relation.rowsFrom (i + 1) t = pre ++ (h, x) :: post ∧
          Relation.rowsFrom (i + 1) (t.set (h - i - 1) none) = pre ++ post ∧
          (∀ (k : Nat) (y : ValueDict), (k, y) ∈ pre → k < h) ∧ i + 1 ≤ h := by
      intro hm
      obtain ⟨pre, post, e1, e2, e3⟩ := ih (i + 1) hm
      have hb := rowsFrom_bounds t (i + 1) h x hm
      have : h - (i + 1) = h - i - 1 := by omega
      rw [this] at e2
      exact ⟨pre, post, e1, e2, e3, hb.1⟩
    cases a with
    | none =>
      simp only [Relation.rowsFrom] at hx
      obtain ⟨pre, post, e1, e2, e3, hle⟩ := step hx
      have hset : (none :: t).set (h - i) none = none :: t.set (h - i - 1) none := by
        have : h - i = (h - i - 1) + 1 := by omega
        rw [this, List.set_cons_succ]
        simp
      refine ⟨pre, post, ?_, ?_, e3⟩
      · simp only [Relation.rowsFrom]; exact e1
      · rw [hset]; simp only [Relation.rowsFrom]; exact e2
    | some y =>
      simp only [Relation.rowsFrom, List.mem_cons, Prod.mk.injEq] at hx
      rcases hx with ⟨rfl, rfl⟩ | hx
      · refine ⟨[], Relation.rowsFrom (h + 1) t, ?_, ?_, ?_⟩
        · simp [Relation.rowsFrom]
        · simp [Relation.rowsFrom]
        · simp
      · obtain ⟨pre, post, e1, e2, e3, hle⟩ := step hx
        have hset : (some y :: t).set (h - i) none = some y :: t.set (h - i - 1) none := by
          have : h - i = (h - i - 1) + 1 := by omega
          rw [this, List.set_cons_succ]
          simp
        refine ⟨(i, y) :: pre, post, ?_, ?_, ?_⟩
        · simp only [Relation.rowsFrom, e1, List.cons_append]
        · rw [hset]; simp only [Relation.rowsFrom, e2, List.cons_append]
        · intro k z hk
          simp only [List.mem_cons, Prod.mk.injEq] at hk
          rcases hk with ⟨rfl, -⟩ | hk
          · omega
          · exact e3 k z hk

/-- Deleting the first selected handle removes the first matching row, and only
that row. -/
theorem rows_del_first_selected (r : Relation) (f : ValueDict) (h : Handle) (rest : Handles)
    (hsel : Relation.select r (some f) = h :: rest) :
    ∃ x pre post, Relation.rows r = pre ++ (h, x) :: post ∧
      Relation.rows (r.set h none) = pre ++ post ∧
      (∀ p ∈ pre, ValueDict.satisfies p.2 f = false) ∧
      ValueDict.satisfies x f = true := by
  have hmem : h ∈ Relation.select r (some f) := by rw [hsel]; exact List.mem_cons_self _ _
  unfold Relation.select at hmem hsel
  simp only [] at hmem hsel
  obtain ⟨⟨k, x⟩, hp, hk⟩ := List.mem_map.mp hmem
  simp only at hk
  subst hk
  obtain ⟨hx, hsat⟩ := List.mem_filter.mp hp
  simp only at hsat
  obtain ⟨pre, post, e1, e2, e3⟩ := rowsFrom_split r 0 k x hx
  simp only [Nat.sub_zero] at e2
  refine ⟨x, pre, post, e1, e2, ?_, hsat⟩
  intro p hp
  cases hs : ValueDict.satisfies p.2 f with
  | false => rfl
  | true =>
    exfalso
    unfold Relation.rows at hsel
    rw [e1, List.filter_append, List.map_append] at hsel
    have hpf : p ∈ pre.filter (fun q => ValueDict.satisfies q.2 f) :=
      List.mem_filter.mpr ⟨hp, hs⟩
    obtain ⟨a, b, hab⟩ := List.exists_cons_of_ne_nil (List.ne_nil_of_mem hpf)
    rw [hab] at hsel
    simp only [List.map_cons, List.cons_append, List.cons.injEq] at hsel
    have ha : a ∈ pre := (List.mem_filter.mp (hab ▸ List.mem_cons_self a b)).1
    have h2 := e3 a.1 a.2 ha
    rw [hsel.1] at h2
    exact absurd h2 (Nat.lt_irrefl _)

/-- A deletion loop for which no fault is scheduled deletes every handle. -/
theorem del_each_quiet (c : Catalog) (hs : Handles) (w : World) (hq : w.quiet hs.length) :
    ∃ w', SQLExec.del_each c hs w = (Except.ok (), w') ∧
      w'.calls = w.calls ++ hs.map (Call.del c) ∧
      w'.faults = w.faults.drop hs.length := by
  induction hs generalizing w with
  | nil => exact ⟨w, rfl, by simp, by simp⟩
  | cons h tl ih =>
    obtain ⟨hf, hq1⟩ := quiet_succ w tl.length (Call.del c h) hq
    have hdel : DbRelation.del c h w =
        (Except.ok (), (w.logged (Call.del c h)).setRel c ((w.rel c).set h none)) := by
      unfold DbRelation.del
      simp only [hf]
      cases c <;> rfl
    have hfaults : ((w.logged (Call.del c h)).setRel c ((w.rel c).set h none)).faults =
        w.faults.tail := by
      cases c <;> rfl
    have hcalls : ((w.logged (Call.del c h)).setRel c ((w.rel c).set h none)).calls =
        w.calls ++ [Call.del c h] := by
      cases c <;> rfl
    have hq2 : ((w.logged (Call.del c h)).setRel c ((w.rel c).set h none)).quiet tl.length := by
      unfold World.quiet at hq1 ⊢
      rw [hfaults]
      exact hq1
    obtain ⟨w', e1, e2, e3⟩ := ih _ hq2
    refine ⟨w', ?_, ?_, ?_⟩
    · unfold SQLExec.del_each
      rw [hdel]
      exact e1
    · rw [e2, hcalls]
      simp
    · rw [e3, hfaults]
      simp

/-- Past the guard, the world `drop` leaves is the one left by the columns
deletions when they fail, and otherwise extends the one left by the physical
drop by at most the deletion of a tables row. -/
theorem drop_unguarded_world (statement : DropStatement) (w : World)
    (htable : statement.type = DropStatement.EntityType.kTable)
    (hguard : ¬ (statement.name = Tables.TABLE_NAME ∨ statement.name = Columns.TABLE_NAME))
    (w1 : World)
    (h1 : SQLExec.del_each Catalog.columns
      (Relation.select w.columns (some [("table_name", Value.text statement.name)])) w
        = (Except.ok (), w1)) :
    ∃ tail, (SQLExec.drop statement w).2.calls = w1.calls ++ Call.drop statement.name :: tail ∧
      (SQLExec.drop statement w).2.columns = w1.columns ∧
      (SQLExec.drop statement w).2.physical = (DbRelation.drop statement.name w1).2.physical := by
  obtain ⟨c1, -⟩ := drop_calls statement.name w1
  obtain ⟨-, k2, -⟩ := drop_catalog statement.name w1
  unfold SQLExec.drop
  simp only [htable, ne_eq, not_true_eq_false, if_false, hguard, h1]
  cases h2 : DbRelation.drop statement.name w1 with
  | mk r2 w2 =>
    rw [h2] at c1 k2
    simp only [] at c1 k2
    cases r2 with
    | error e => exact ⟨[], by simpa using c1, k2, rfl⟩
    | ok u2 =>
      simp only []
      cases h3 : Relation.select w2.tables (some [("table_name", Value.text statement.name)]) with
      | nil => exact ⟨[], by simpa using c1, k2, rfl⟩
      | cons h rest =>
        simp only []
        obtain ⟨f1, -, f3, -, f5⟩ := del_fields Catalog.tables h w2
        have hc := f5 Catalog.columns (by decide)
        simp only [World.rel] at hc
        cases h4 : DbRelation.del Catalog.tables h w2 with
        | mk r4 w4 =>
          rw [h4] at f1 f3 hc
          simp only [] at f1 f3 hc
          cases r4 with
          | error e =>
            exact ⟨[Call.del Catalog.tables h], by simp [f1, c1], hc.trans k2, f3⟩
          | ok u4 =>
            exact ⟨[Call.del Catalog.tables h], by simp [f1, c1], hc.trans k2, f3⟩

/-! ## Claims C21 and C22 -/

/-- C21 (drop removes exactly one tables row). Whenever `SQLExec.drop` returns
successfully, the selection on `table_name` T over the tables relation is non-empty
and exactly the row of its first handle is deleted: the rows of tables before are
`pre ++ (h, x) :: post` and after are `pre ++ post`, so every other row is unchanged;
the deleted row is the first of the rows named T, and one row named T fewer remains
(k - 1 of k). The lookup of the first selected handle is undefined exactly when
the handler reaches it (a table statement past the guard whose columns deletions
and physical drop succeed) with an empty selection. -/
theorem drop_removes_first_tables_row (statement : DropStatement) (w : World) :
    (∀ r w', SQLExec.drop statement w = (Except.ok r, w') →
      ∃ h x pre post rest,
        Relation.select w.tables (some [("table_name", Value.text statement.name)]) = h :: rest ∧
        Relation.rows w.tables = pre ++ (h, x) :: post ∧
        Relation.rows w'.tables = pre ++ post ∧
        Relation.referencing w.tables statement.name =
          (h, x) :: Relation.referencing w'.tables statement.name ∧
        (Relation.referencing w'.tables statement.name).length + 1 =
          (Relation.referencing w.tables statement.name).length) ∧
    ((SQLExec.drop statement w).1 = Except.error Exn.undefined_behavior ↔
      statement.type = DropStatement.EntityType.kTable ∧
      ¬ (statement.name = Tables.TABLE_NAME ∨ statement.name = Columns.TABLE_NAME) ∧
      (∃ w1 w2, SQLExec.del_each Catalog.columns
          (Relation.select w.columns (some [("table_name", Value.text statement.name)])) w
            = (Except.ok (), w1) ∧
        DbRelation.drop statement.name w1 = (Except.ok (), w2)) ∧
      Relation.select w.tables (some [("table_name", Value.text statement.name)]) = []) := by
  have htabs : ∀ w1 w2 : World, SQLExec.del_each Catalog.columns
      (Relation.select w.columns (some [("table_name", Value.text statement.name)])) w
        = (Except.ok (), w1) →
      DbRelation.drop statement.name w1 = (Except.ok (), w2) → w2.tables = w.tables := by
    intro w1 w2 h1 h2
    have hcat := drop_catalog statement.name w1
    rw [h2] at hcat
    obtain ⟨-, d2, -, -⟩ := del_each_ok _ _ _ _ _ h1
    exact hcat.1.trans (d2 Catalog.tables (by decide))
  constructor
  · intro r w' hdrop
    obtain ⟨-, -, w1, w2, h, rest, h1, h2, h3, h4, -⟩ := drop_success_steps _ _ _ _ hdrop
    have ht := htabs w1 w2 h1 h2
    rw [ht] at h3
    obtain ⟨x, pre, post, e1, e2, hpre, hsat⟩ := rows_del_first_selected w.tables _ h rest h3
    have hw' : w'.tables = w.tables.set h none := by
      rw [del_ok _ _ _ _ _ h4]
      show (w2.tables).set h none = _
      rw [ht]
    have hnone : pre.filter (fun p =>
        ValueDict.satisfies p.2 [("table_name", Value.text statement.name)]) = [] := by
      apply List.filter_eq_nil_iff.mpr
      intro p hp
      simp [hpre p hp]
    have hbefore : Relation.referencing w.tables statement.name =
        (h, x) :: post.filter (fun p =>
          ValueDict.satisfies p.2 [("table_name", Value.text statement.name)]) := by
      unfold Relation.referencing
      rw [e1, List.filter_append, hnone, List.nil_append, List.filter_cons_of_pos]
      exact hsat
    have hafter : Relation.referencing w'.tables statement.name =
        post.filter (fun p =>
          ValueDict.satisfies p.2 [("table_name", Value.text statement.name)]) := by
      unfold Relation.referencing
      rw [hw', e2, List.filter_append, hnone, List.nil_append]
    refine ⟨h, x, pre, post, rest, h3, e1, ?_, ?_, ?_⟩
    · rw [hw']; exact e2
    · rw [hbefore, hafter]
    · rw [hbefore, hafter]; rfl
  · unfold SQLExec.drop
    by_cases htype : statement.type = DropStatement.EntityType.kTable
    swap
    · simp [htype]
    by_cases hguard : statement.name = Tables.TABLE_NAME ∨ statement.name = Columns.TABLE_NAME
    · simp [htype, hguard]
    simp only [htype, ne_eq, not_true_eq_false, if_false, hguard, true_and, not_false_eq_true]
    cases h1 : SQLExec.del_each Catalog.columns
        (Relation.select w.columns (some [("table_name", Value.text statement.name)])) w with
    | mk r1 w1 =>
      cases r1 with
      | error e =>
        obtain ⟨m, rfl⟩ := del_each_error _ _ _ _ _ h1
        simp
      | ok u1 =>
        simp only []
        cases h2 : DbRelation.drop statement.name w1 with
        | mk r2 w2 =>
          cases r2 with
          | error e =>
            obtain ⟨⟨m, rfl⟩, -⟩ := drop_error _ _ _ _ h2
            simp [h2]
          | ok u2 =>
            have ht := htabs w1 w2 h1 h2
            simp only [ht]
            cases h3 : Relation.select w.tables
                (some [("table_name", Value.text statement.name)]) with
            | nil => simp [h2]
            | cons h rest =>
              simp only []
              cases h4 : DbRelation.del Catalog.tables h w2 with
              | mk r4 w4 =>
                cases r4 with
                | ok u4 => simp [h2]
                | error e =>
                  obtain ⟨⟨m, rfl⟩, -⟩ := del_error _ _ _ _ _ h4
                  simp [h2]

/-- Witness for C21: after T has been created twice, dropping T deletes the tables
row of handle 0 and leaves the one of handle 1; with a physical relation T and no
tables row, the lookup of the first selected handle is undefined. -/
theorem drop_removes_first_tables_row_witness :
    (Relation.referencing (SQLExec.drop Sample.dropT
          (SQLExec.create Sample.createTIfNotExists
            (SQLExec.create Sample.createTIfNotExists World.empty).2).2).2.tables
          Sample.dropT.name).length + 1 =
        (Relation.referencing (SQLExec.create Sample.createTIfNotExists
          (SQLExec.create Sample.createTIfNotExists World.empty).2).2.tables
          Sample.dropT.name).length ∧
      Relation.rows (SQLExec.create Sample.createTIfNotExists
          (SQLExec.create Sample.createTIfNotExists World.empty).2).2.tables =
        [(0, [("table_name", Value.text "T")]), (1, [("table_name", Value.text "T")])] ∧
      Relation.rows (SQLExec.drop Sample.dropT (SQLExec.create Sample.createTIfNotExists
          (SQLExec.create Sample.createTIfNotExists World.empty).2).2).2.tables =
        [(1, [("table_name", Value.text "T")])] ∧
      (SQLExec.drop Sample.dropT { World.empty with physical := ["T"] }).1 =
        Except.error Exn.undefined_behavior :=
  ⟨(match (drop_removes_first_tables_row Sample.dropT
      (SQLExec.create Sample.createTIfNotExists
        (SQLExec.create Sample.createTIfNotExists World.empty).2).2).1
      { column_names := none, column_attributes := none, rows := none,
        message := "Dropped table T" }
      (SQLExec.drop Sample.dropT (SQLExec.create Sample.createTIfNotExists
        (SQLExec.create Sample.createTIfNotExists World.empty).2).2).2 rfl with
      | ⟨_, _, _, _, _, _, _, _, _, hlen⟩ => hlen),
    by decide, by decide,
    (drop_removes_first_tables_row Sample.dropT { World.empty with physical := ["T"] }).2.mpr
      ⟨rfl, by decide, ⟨_, _, rfl, rfl⟩, by decide⟩⟩

/-- C22 (extent of the drop guard). For a drop statement that targets a table,
`SQLExec.drop` raises the guard error if and only if the target name is the tables
catalog name or the columns catalog name. The indices catalog name is neither. For
every other name the handler goes on: when no storage fault is scheduled for the
columns deletions and the physical drop, it requests the deletion of each selected
columns row of that name in selection order and then the physical drop of that
name, after which no columns row names it and its physical relation, if there was
one, is gone. -/
theorem drop_guard_extent (statement : DropStatement) (w : World)
    (htable : statement.type = DropStatement.EntityType.kTable) :
    ((SQLExec.drop statement w).1 = Except.error (Exn.SQLExecError "Cannot drop a schema table.") ↔
      statement.name = Tables.TABLE_NAME ∨ statement.name = Columns.TABLE_NAME) ∧
    (Indices.TABLE_NAME ≠ Tables.TABLE_NAME ∧ Indices.TABLE_NAME ≠ Columns.TABLE_NAME) ∧
    (¬ (statement.name = Tables.TABLE_NAME ∨ statement.name = Columns.TABLE_NAME) →
      w.quiet ((Relation.select w.columns
        (some [("table_name", Value.text statement.name)])).length + 1) →
      ∃ tail, (SQLExec.drop statement w).2.calls =
          w.calls ++ (Relation.select w.columns
            (some [("table_name", Value.text statement.name)])).map (Call.del Catalog.columns) ++
            Call.drop statement.name :: tail ∧
        Relation.referencing (SQLExec.drop statement w).2.columns statement.name = [] ∧
        (statement.name ∈ w.physical → statement.name ∉ (SQLExec.drop statement w).2.physical)) := by
  refine ⟨⟨?_, ?_⟩, ⟨by decide, by decide⟩, ?_⟩
  · intro hres
    by_contra hguard
    unfold SQLExec.drop at hres
    simp only [htable, ne_eq, not_true_eq_false, if_false, hguard] at hres
    cases h1 : SQLExec.del_each Catalog.columns
        (Relation.select w.columns (some [("table_name", Value.text statement.name)])) w with
    | mk r1 w1 =>
      rw [h1] at hres
      cases r1 with
      | error e =>
        obtain ⟨m, rfl⟩ := del_each_error _ _ _ _ _ h1
        simp at hres
      | ok u1 =>
        simp only [] at hres
        cases h2 : DbRelation.drop statement.name w1 with
        | mk r2 w2 =>
          rw [h2] at hres
          cases r2 with
          | error e =>
            obtain ⟨⟨m, rfl⟩, -⟩ := drop_error _ _ _ _ h2
            simp at hres
          | ok u2 =>
            simp only [] at hres
            cases h3 : Relation.select w2.tables
                (some [("table_name", Value.text statement.name)]) with
            | nil => simp [h3] at hres
            | cons h rest =>
              rw [h3] at hres
              simp only [] at hres
              cases h4 : DbRelation.del Catalog.tables h w2 with
              | mk r4 w4 =>
                rw [h4] at hres
                cases r4 with
                | ok u4 => simp at hres
                | error e =>
                  obtain ⟨⟨m, rfl⟩, -⟩ := del_error _ _ _ _ _ h4
                  simp at hres
  · intro hguard
    unfold SQLExec.drop
    simp [htable, hguard]
  · intro hguard hq
    have hq0 : w.quiet (Relation.select w.columns
        (some [("table_name", Value.text statement.name)])).length := by
      intro f hf
      exact hq f ((List.take_subset_take_left _ (Nat.le_succ _)) hf)
    obtain ⟨w1, h1, c1, f1⟩ := del_each_quiet Catalog.columns _ w hq0
    obtain ⟨tail, t1, t2, t3⟩ := drop_unguarded_world statement w htable hguard w1 h1
    refine ⟨tail, ?_, ?_, ?_⟩
    · rw [t1, c1]
    · have hrows := rows_after_del_selected Catalog.columns _ w w1 () h1
      simp only [World.rel] at hrows
      unfold Relation.referencing
      rw [t2, hrows, List.filter_filter]
      apply List.filter_eq_nil_iff.mpr
      intro p _
      simp
    · intro hin
      have hp1 : w1.physical = w.physical := by
        have := (del_each_frame Catalog.columns (Relation.select w.columns
          (some [("table_name", Value.text statement.name)])) w).1
        rw [h1] at this
        exact this
      have hf1 : w1.fault = none := by
        unfold World.fault
        rw [f1]
        cases hd : w.faults.drop (Relation.select w.columns
            (some [("table_name", Value.text statement.name)])).length with
        | nil => rfl
        | cons f fs =>
          simp only [List.headD_cons]
          apply hq f
          have hm : f ∈ (w.faults.drop (Relation.select w.columns
              (some [("table_name", Value.text statement.name)])).length).take 1 := by
            simp [hd]
          rw [List.take_drop] at hm
          exact List.mem_of_mem_drop hm
      rw [t3]
      unfold DbRelation.drop
      simp only [hf1, World.logged, hp1, hin, if_true]
      simp

/-- Witness for C22 on the sample catalog: dropping the indices catalog relation is
not stopped by the guard, deletes its two columns rows and drops it, while dropping
the tables catalog relation raises the guard error. -/
theorem drop_guard_extent_witness :
    ¬ ((SQLExec.drop Sample.dropIndices Sample.catalog).1 =
        Except.error (Exn.SQLExecError "Cannot drop a schema table.")) ∧
      (SQLExec.drop Sample.dropTables Sample.catalog).1 =
        Except.error (Exn.SQLExecError "Cannot drop a schema table.") ∧
      (SQLExec.drop Sample.dropIndices Sample.catalog).2.calls =
        [Call.del Catalog.columns 0, Call.del Catalog.columns 1, Call.drop "_indices",
         Call.del Catalog.tables 2] ∧
      Relation.referencing (SQLExec.drop Sample.dropIndices Sample.catalog).2.columns
        Sample.dropIndices.name = [] :=
  ⟨fun h => absurd ((drop_guard_extent Sample.dropIndices Sample.catalog rfl).1.mp h) (by decide),
    (drop_guard_extent Sample.dropTables Sample.catalog rfl).1.mpr (Or.inl rfl),
    by decide,
    (match (drop_guard_extent Sample.dropIndices Sample.catalog rfl).2.2 (by decide) (by decide) with
      | ⟨_, _, href, _⟩ => href)⟩

end SQL5300
